import Mathlib

/-!
Verification of the esperanto module transpiler (v0.6.18, dist/esperanto.js).

Shallow embedding of the program-rewriting engine: lexical scopes, the AST
fragment the body rewriter walks, the mutable-text buffer collaborator, the
body rewriter and its guards, the path resolver, the module sorter, bundle
default-name planning, the error handlers of the bundle loader, and the
wrapper builders with their option checks.  Line references are to
dist/esperanto.js unless stated otherwise.
-/

namespace Esperanto

/-- JavaScript object read (hasOwnProperty guarded property access). -/
def objGet {α : Type} : List (String × α) → String → Option α
  | [], _ => none
  | (k, v) :: rest, key => if k = key then some v else objGet rest key

/-- JavaScript object write: update in place, or append, preserving the
insertion order of keys (the order Object.keys later reports). -/
def objSet {α : Type} : List (String × α) → String → α → List (String × α)
  | [], key, v => [(key, v)]
  | (k, w) :: rest, key, v =>
    if k = key then (k, v) :: rest else (k, w) :: objSet rest key v

/-- Lexical scope (dist lines 44-49): declared names plus an optional parent. -/
inductive Scope where
  | mk (names : List String) (parent : Option Scope)

/-- Scope.prototype.contains (dist lines 56-70).  When ignoreTopLevel is set
and the scope is the root, the answer is false before the names are consulted;
otherwise membership is checked and the search continues in the parent. -/
def Scope.contains : Scope → String → Bool → Bool
  | .mk names parent, name, ignoreTopLevel =>
    if ignoreTopLevel && parent.isNone then false
    else if names.contains name then true
    else
      match parent with
      | some p => Scope.contains p name ignoreTopLevel
      | none => false

/-- The AST fragment traversed by the body rewriter.  Nodes carry their
half-open source offsets.  Only identifier nodes carry the skip mark, since
annotateAst (dist lines 80-82, 134, 138) only ever marks identifiers in the
positions the rewriter cares about (property keys, non-computed member
properties); function names are kept out of band, mirroring the
parent-type guard of dist line 1193. -/
inductive Node where
  | ident (name : String) (skip : Bool) (start stop : Nat)
  | lit (start stop : Nat)
  | thisExpr (topLevel : Bool) (start stop : Nat)
  | member (obj prop : Node) (computed : Bool) (start stop : Nat)
  | assign (op : String) (left right : Node) (start stop : Nat)
  | update (op : String) (argument : Node) (start stop : Nat)
  | varDeclarator (id : Node) (init : Option Node) (start stop : Nat)
  | varDecl (kind : String) (declarations : List Node) (start stop : Nat)
  | exprStmt (e : Node) (start stop : Nat)
  | block (body : List Node) (start stop : Nat)
  | funcDecl (name : String) (params : List String) (body : List Node) (start stop : Nat)
  | funcExpr (id : Option String) (params : List String) (body : List Node) (start stop : Nat)

/-- Source offset where a node starts. -/
def Node.startPos : Node → Nat
  | .ident _ _ s _ => s
  | .lit s _ => s
  | .thisExpr _ s _ => s
  | .member _ _ _ s _ => s
  | .assign _ _ _ s _ => s
  | .update _ _ s _ => s
  | .varDeclarator _ _ s _ => s
  | .varDecl _ _ s _ => s
  | .exprStmt _ s _ => s
  | .block _ s _ => s
  | .funcDecl _ _ _ s _ => s
  | .funcExpr _ _ _ s _ => s

/-- Source offset just past a node. -/
def Node.stopPos : Node → Nat
  | .ident _ _ _ e => e
  | .lit _ e => e
  | .thisExpr _ _ e => e
  | .member _ _ _ _ e => e
  | .assign _ _ _ _ e => e
  | .update _ _ _ e => e
  | .varDeclarator _ _ _ e => e
  | .varDecl _ _ _ e => e
  | .exprStmt _ _ e => e
  | .block _ _ e => e
  | .funcDecl _ _ _ _ e => e
  | .funcExpr _ _ _ _ e => e

/-- Name of an identifier node, as a singleton list (empty otherwise). -/
def identName : Node → List String
  | .ident n _ _ _ => [n]
  | _ => []

mutual

/-- Names that annotateAst adds to the enclosing function scope while walking
a node (dist lines 88-128, 174-179): declarators of non-let declarations and
the names of function declarations and named function expressions; the walk
does not descend into nested function bodies, whose vars land in their own
scope. -/
def varsOfNode : Node → List String
  | .ident _ _ _ _ => []
  | .lit _ _ => []
  | .thisExpr _ _ _ => []
  | .member obj prop _ _ _ => varsOfNode obj ++ varsOfNode prop
  | .assign _ l r _ _ => varsOfNode l ++ varsOfNode r
  | .update _ a _ _ => varsOfNode a
  | .varDeclarator _ init _ _ => varsOfOpt init
  | .varDecl kind ds _ _ => varsOfDeclList kind ds
  | .exprStmt e _ _ => varsOfNode e
  | .block body _ _ => varsOfList body
  | .funcDecl name _ _ _ _ => [name]
  | .funcExpr id _ _ _ _ => id.toList

/-- varsOfNode over an optional node. -/
def varsOfOpt : Option Node → List String
  | none => []
  | some n => varsOfNode n

/-- varsOfNode over a statement list. -/
def varsOfList : List Node → List String
  | [] => []
  | n :: rest => varsOfNode n ++ varsOfList rest

/-- Contribution of a declarator list given the declaration kind: let-bound
names go to the block scope (dist line 122), everything else to the function
scope; initializers are walked either way. -/
def varsOfDeclList (kind : String) : List Node → List String
  | [] => []
  | .varDeclarator id init _ _ :: rest =>
    (if kind = "let" then [] else identName id) ++ varsOfOpt init ++ varsOfDeclList kind rest
  | n :: rest => varsOfNode n ++ varsOfDeclList kind rest

end

mutual

/-- All names recorded in annotateAst's declared map (dist lines 174-186):
every declarator id of any kind and every function name, across the whole
tree, nested functions included; parameters are not recorded there. -/
def declaredOfNode : Node → List String
  | .ident _ _ _ _ => []
  | .lit _ _ => []
  | .thisExpr _ _ _ => []
  | .member obj prop _ _ _ => declaredOfNode obj ++ declaredOfNode prop
  | .assign _ l r _ _ => declaredOfNode l ++ declaredOfNode r
  | .update _ a _ _ => declaredOfNode a
  | .varDeclarator id init _ _ => identName id ++ declaredOfOpt init
  | .varDecl _ ds _ _ => declaredOfList ds
  | .exprStmt e _ _ => declaredOfNode e
  | .block body _ _ => declaredOfList body
  | .funcDecl name _ body _ _ => name :: declaredOfList body
  | .funcExpr id _ body _ _ => id.toList ++ declaredOfList body

/-- declaredOfNode over an optional node. -/
def declaredOfOpt : Option Node → List String
  | none => []
  | some n => declaredOfNode n

/-- declaredOfNode over a node list. -/
def declaredOfList : List Node → List String
  | [] => []
  | n :: rest => declaredOfNode n ++ declaredOfList rest

end

mutual

/-- True when no this-expression in the tree carries the top-level flag that
annotateAst sets at env depth zero (dist lines 145-149). -/
def noTopLevelThis : Node → Bool
  | .ident _ _ _ _ => true
  | .lit _ _ => true
  | .thisExpr topLevel _ _ => !topLevel
  | .member obj prop _ _ _ => noTopLevelThis obj && noTopLevelThis prop
  | .assign _ l r _ _ => noTopLevelThis l && noTopLevelThis r
  | .update _ a _ _ => noTopLevelThis a
  | .varDeclarator id init _ _ => noTopLevelThis id && noTopLevelThisOpt init
  | .varDecl _ ds _ _ => noTopLevelThisList ds
  | .exprStmt e _ _ => noTopLevelThis e
  | .block body _ _ => noTopLevelThisList body
  | .funcDecl _ _ body _ _ => noTopLevelThisList body
  | .funcExpr _ _ body _ _ => noTopLevelThisList body

/-- noTopLevelThis over an optional node. -/
def noTopLevelThisOpt : Option Node → Bool
  | none => true
  | some n => noTopLevelThis n

/-- noTopLevelThis over a node list. -/
def noTopLevelThisList : List Node → Bool
  | [] => true
  | n :: rest => noTopLevelThis n && noTopLevelThisList rest

end

mutual

/-- Top-level function declaration names (dist lines 100-104): function
declarations reached without crossing a function boundary. -/
def tlfnOfNode : Node → List String
  | .ident _ _ _ _ => []
  | .lit _ _ => []
  | .thisExpr _ _ _ => []
  | .member obj prop _ _ _ => tlfnOfNode obj ++ tlfnOfNode prop
  | .assign _ l r _ _ => tlfnOfNode l ++ tlfnOfNode r
  | .update _ a _ _ => tlfnOfNode a
  | .varDeclarator id init _ _ => tlfnOfNode id ++ tlfnOfOpt init
  | .varDecl _ ds _ _ => tlfnOfList ds
  | .exprStmt e _ _ => tlfnOfNode e
  | .block body _ _ => tlfnOfList body
  | .funcDecl name _ _ _ _ => [name]
  | .funcExpr _ _ _ _ _ => []

/-- tlfnOfNode over an optional node. -/
def tlfnOfOpt : Option Node → List String
  | none => []
  | some n => tlfnOfNode n

/-- tlfnOfNode over a node list. -/
def tlfnOfList : List Node → List String
  | [] => []
  | n :: rest => tlfnOfNode n ++ tlfnOfList rest

end

/-- One offset-keyed text edit: replace the half-open span with the content.
Inserts are zero-width spans. -/
structure Edit where
  start : Nat
  stop : Nat
  content : String
deriving DecidableEq

/-- Mutable-text buffer collaborator (spec section 6): the original source,
offset-keyed edits, intro/outro accumulators, trim marks and an indent
counter.  Edits are keyed by original offsets, so their order of arrival is
irrelevant, matching the magic-string contract; indentation is recorded but
not rendered, since no verified property depends on it. -/
structure MS where
  original : String
  edits : List Edit
  intro : String
  outro : String
  trimStart : Bool
  trimEnd : Bool
  indents : Nat
deriving DecidableEq

/-- A fresh buffer over a source string. -/
def MS.fresh (s : String) : MS := ⟨s, [], "", "", false, false, 0⟩

/-- body.replace(a, b, s). -/
def MS.replace (ms : MS) (a b : Nat) (s : String) : MS :=
  { ms with edits := ms.edits ++ [⟨a, b, s⟩] }

/-- body.insert(p, s). -/
def MS.insert (ms : MS) (p : Nat) (s : String) : MS :=
  { ms with edits := ms.edits ++ [⟨p, p, s⟩] }

/-- body.remove(a, b). -/
def MS.remove (ms : MS) (a b : Nat) : MS := ms.replace a b ""

/-- body.prepend(s): accumulates before all earlier prepends. -/
def MS.prepend (ms : MS) (s : String) : MS := { ms with intro := s ++ ms.intro }

/-- body.append(s): accumulates after all earlier appends. -/
def MS.append (ms : MS) (s : String) : MS := { ms with outro := ms.outro ++ s }

/-- body.trim(): both edges will be whitespace-trimmed at render time. -/
def MS.trim (ms : MS) : MS := { ms with trimStart := true, trimEnd := true }

/-- body.trimLines(): modelled with the same trim marks. -/
def MS.trimLines (ms : MS) : MS := { ms with trimStart := true, trimEnd := true }

/-- body.indent(): recorded only. -/
def MS.indent (ms : MS) : MS := { ms with indents := ms.indents + 1 }

/-- body.getIndentString(): collaborator model always answers a tab. -/
def MS.getIndentString (_ : MS) : String := "\t"

/-- body.original[i] as an optional character. -/
def MS.originalChar (ms : MS) (i : Nat) : Option Char := ms.original.data.get? i

/-- Insert an edit into a start-sorted list, keeping earlier edits with the
same start first (stable). -/
def insertEdit (e : Edit) : List Edit → List Edit
  | [] => [e]
  | f :: fs => if f.start ≤ e.start then f :: insertEdit e fs else e :: f :: fs

/-- Stable sort of edits by start offset. -/
def sortEdits (es : List Edit) : List Edit := es.foldl (fun acc e => insertEdit e acc) []

/-- Apply start-sorted, non-overlapping edits to the characters after pos. -/
def applySorted : List Char → Nat → List Edit → List Char
  | cs, _, [] => cs
  | cs, pos, e :: es =>
    cs.take (e.start - pos) ++ e.content.data ++ applySorted (cs.drop (e.stop - pos)) e.stop es

/-- Render the buffer: intro, edited original, outro, then trims. -/
def MS.render (ms : MS) : String :=
  let core := String.mk (applySorted ms.original.data 0 (sortEdits ms.edits))
  let s := ms.intro ++ core ++ ms.outro
  let s := if ms.trimStart then String.mk (s.data.dropWhile Char.isWhitespace) else s
  if ms.trimEnd then String.mk (s.data.reverse.dropWhile Char.isWhitespace).reverse else s

/-- One import specifier (dist lines 275-299). -/
structure Specifier where
  isDefault : Bool := false
  isBatch : Bool := false
  name : String
  as : String
deriving DecidableEq

/-- An import declaration record (dist lines 266-316); the module name is the
one determineImportNames later fills in (dist line 605). -/
structure ImportDecl where
  path : String
  name : String := ""
  start : Nat := 0
  stop : Nat := 0
  next : Nat := 0
  passthrough : Bool := false
  isEmpty : Bool := false
  isDefault : Bool := false
  isBatch : Bool := false
  isNamed : Bool := false
  as : Option String := none
  specifiers : List Specifier := []
deriving DecidableEq

/-- An export declaration record (dist lines 318-415).  The etype field is the
JS discriminator named type; specifiers holds the local names of a named
export list. -/
structure ExportDecl where
  etype : String
  isDefault : Bool := false
  hasDeclaration : Bool := false
  name : Option String := none
  value : String := ""
  start : Nat := 0
  stop : Nat := 0
  valueStart : Nat := 0
  next : Nat := 0
  isFinal : Bool := false
  specifiers : Option (List String) := none
deriving DecidableEq

/-- A loaded module: source, annotated program body, declaration records, its
text buffer and (for bundles) the identifier replacement map. -/
structure Module where
  source : String
  ast : List Node
  imports : List ImportDecl := []
  exports : List ExportDecl := []
  body : MS := MS.fresh ""
  identifierReplacements : List (String × String) := []
  defaultExport : Option ExportDecl := none

/-- getReadOnlyIdentifiers (dist lines 1052-1068): local aliases of
non-passthrough specifiers, batch ones forming the namespace set. -/
def getReadOnlyIdentifiers (imports : List ImportDecl) : List String × List String :=
  imports.foldl
    (fun acc x =>
      if x.passthrough then acc
      else
        x.specifiers.foldl
          (fun acc s =>
            if s.isBatch then (acc.1, acc.2 ++ [s.as]) else (acc.1 ++ [s.as], acc.2))
          acc)
    ([], [])

/-- Error text head for reassigned imported bindings (dist line 1070). -/
def bindingMessage : String := "Cannot reassign imported binding "

/-- Error text head for reassigned namespace members (dist line 1071). -/
def namespaceMessage : String := "Cannot reassign imported binding of namespace "

/-- The operator field of an assignment or update node. -/
def nodeOperator : Node → String
  | .assign op _ _ _ _ => op
  | .update op _ _ _ => op
  | _ => ""

/-- Core of disallowIllegalReassignment once the assignee is extracted (dist
lines 1084-1097): unwrap one member expression (namespace case), then fail
when the identifier is an imported binding not shadowed by any scope. -/
def disallowAssignee (assignee : Node) (importedBindings importedNamespaces : List String)
    (scope : Scope) : Except String Unit :=
  let unwrapped :=
    match assignee with
    | .member obj _ _ _ _ => (obj, true)
    | a => (a, false)
  match unwrapped.1 with
  | .ident name _ _ _ =>
    if (if unwrapped.2 then importedNamespaces.contains name else importedBindings.contains name)
        && !(scope.contains name false) then
      .error ((if unwrapped.2 then namespaceMessage else bindingMessage) ++ "\x60" ++ name ++ "\x60")
    else .ok ()
  | _ => .ok ()

/-- disallowIllegalReassignment (dist lines 1073-1098); the scope test there
passes no second argument, hence ignoreTopLevel is false. -/
def disallowIllegalReassignment (node : Node) (importedBindings importedNamespaces : List String)
    (scope : Scope) : Except String Unit :=
  match node with
  | .assign _ left _ _ _ => disallowAssignee left importedBindings importedNamespaces scope
  | .update _ arg _ _ => disallowAssignee arg importedBindings importedNamespaces scope
  | _ => .ok ()

/-- replaceIdentifiers (dist lines 1100-1110): rewrite the identifier span
when a replacement exists, differs from the name (and is truthy), and the
name is not shadowed below the top level. -/
def replaceIdentifiers (body : MS) (name : String) (start stop : Nat)
    (identifierReplacements : List (String × String)) (scope : Scope) : MS :=
  match objGet identifierReplacements name with
  | some replacement =>
    if replacement ≠ "" && replacement ≠ name && !(scope.contains name true) then
      body.replace start stop replacement
    else body
  | none => body

/-- A captured update, queued while inside a variable declaration (dist
lines 1134-1140). -/
structure Captured where
  name : String
  exportAs : String
deriving DecidableEq

/-- rewriteExportAssignments (dist lines 1112-1155).  Returns the buffer, the
alreadyExported set and the captured-updates accumulator after the node. -/
def rewriteExportAssignments (body : MS) (node : Node)
    (exports : Option (List (String × String))) (scope : Scope)
    (alreadyExported : List String) (isTopLevelNode : Bool)
    (capturedUpdates : Option (List Captured)) :
    MS × List String × Option (List Captured) :=
  let assignee? :=
    match node with
    | .assign _ left _ _ _ => some left
    | .update _ arg _ _ => some arg
    | _ => none
  match assignee? with
  | none => (body, alreadyExported, capturedUpdates)
  | some assignee =>
    match assignee with
    | .ident name _ _ _ =>
      if scope.contains name true then (body, alreadyExported, capturedUpdates)
      else
        match exports with
        | none => (body, alreadyExported, capturedUpdates)
        | some exs =>
          match objGet exs name with
          | some exportAs =>
            if exportAs = "" then (body, alreadyExported, capturedUpdates)
            else
              match capturedUpdates with
              | some caps => (body, alreadyExported, some (caps ++ [⟨name, exportAs⟩]))
              | none =>
                let op := nodeOperator node
                let body1 :=
                  if op = "++" || op = "--" then
                    body.replace node.stopPos node.stopPos
                      (", exports." ++ exportAs ++ " = " ++ name)
                  else
                    body.replace node.startPos node.startPos
                      ("exports." ++ exportAs ++ " = ")
                let ae1 := if isTopLevelNode then alreadyExported ++ [name] else alreadyExported
                (body1, ae1, capturedUpdates)
          | none => (body, alreadyExported, capturedUpdates)
    | _ => (body, alreadyExported, capturedUpdates)

/-- exportCapturedUpdate (dist lines 1222-1224), transcribed exactly: the
emitted statement is a space, exports dot the captured name, equals, the
captured exportAs, semicolon. -/
def exportCapturedUpdate (c : Captured) : String :=
  " exports." ++ c.name ++ " = " ++ c.exportAs ++ ";"

/-- Immutable context carried through the traversal (arguments of
traverseAst, dist line 1157). -/
structure TCtx where
  identifierReplacements : List (String × String)
  importedBindings : List String
  importedNamespaces : List String
  exportNames : Option (List (String × String))

/-- Mutable state threaded through the traversal: buffer, alreadyExported,
and the captured-updates accumulator (null outside declarations). -/
structure TState where
  body : MS
  alreadyExported : List String
  captured : Option (List Captured)
deriving DecidableEq

/-- The per-node enter work shared by all non-declaration nodes (dist lines
1187-1191): the reassignment guard, then export-assignment rewriting. -/
def enterChecks (ctx : TCtx) (scope : Scope) (atTop : Bool) (st : TState) (n : Node) :
    Except String TState := do
  let _ ← disallowIllegalReassignment n ctx.importedBindings ctx.importedNamespaces scope
  let r := rewriteExportAssignments st.body n ctx.exportNames scope st.alreadyExported atTop
    st.captured
  .ok ⟨r.1, r.2.1, r.2.2⟩

mutual

/-- One enter/descend/leave step of traverseAst (dist lines 1163-1219).
Variable declarations push a fresh capture list on enter and flush it as
inserted statements on leave; function nodes switch to their annotated scope
(params plus their function-scoped vars) and clear the top-level flag;
skip-marked identifiers are skipped; flagged top-level this becomes
undefined. -/
def traverseNode (ctx : TCtx) (scope : Scope) (atTop : Bool) (st : TState) (n : Node) :
    Except String TState :=
  match n with
  | .varDecl _ ds _ e => do
    let prev := st.captured
    let st1 ← traverseList ctx scope atTop { st with captured := some [] } ds
    let st2 :=
      match st1.captured with
      | some caps =>
        if caps.isEmpty then st1
        else { st1 with body := st1.body.insert e (String.join (caps.map exportCapturedUpdate)) }
      | none => st1
    .ok { st2 with captured := prev }
  | .ident name skip s e =>
    if skip then .ok st
    else do
      let st1 ← enterChecks ctx scope atTop st n
      .ok { st1 with
        body := replaceIdentifiers st1.body name s e ctx.identifierReplacements scope }
  | .thisExpr topLevel s e => do
    let st1 ← enterChecks ctx scope atTop st n
    .ok (if topLevel then { st1 with body := st1.body.replace s e "undefined" } else st1)
  | .lit _ _ => enterChecks ctx scope atTop st n
  | .member obj prop _ _ _ => do
    let st1 ← enterChecks ctx scope atTop st n
    let st2 ← traverseNode ctx scope atTop st1 obj
    traverseNode ctx scope atTop st2 prop
  | .assign _ l r _ _ => do
    let st1 ← enterChecks ctx scope atTop st n
    let st2 ← traverseNode ctx scope atTop st1 l
    traverseNode ctx scope atTop st2 r
  | .update _ a _ _ => do
    let st1 ← enterChecks ctx scope atTop st n
    traverseNode ctx scope atTop st1 a
  | .varDeclarator id init _ _ => do
    let st1 ← enterChecks ctx scope atTop st n
    let st2 ← traverseNode ctx scope atTop st1 id
    traverseOpt ctx scope atTop st2 init
  | .exprStmt e _ _ => do
    let st1 ← enterChecks ctx scope atTop st n
    traverseNode ctx scope atTop st1 e
  | .block body _ _ => do
    let st1 ← enterChecks ctx scope atTop st n
    traverseList ctx scope atTop st1 body
  | .funcDecl _ params fbody _ _ => do
    let fscope := Scope.mk (params ++ varsOfList fbody) (some scope)
    let st1 ← enterChecks ctx fscope false st n
    traverseList ctx fscope false st1 fbody
  | .funcExpr _ params fbody _ _ => do
    let fscope := Scope.mk (params ++ varsOfList fbody) (some scope)
    let st1 ← enterChecks ctx fscope false st n
    traverseList ctx fscope false st1 fbody

/-- traverseNode over an optional child. -/
def traverseOpt (ctx : TCtx) (scope : Scope) (atTop : Bool) (st : TState) :
    Option Node → Except String TState
  | none => .ok st
  | some n => traverseNode ctx scope atTop st n

/-- traverseNode over a child list, threading state left to right. -/
def traverseList (ctx : TCtx) (scope : Scope) (atTop : Bool) (st : TState) :
    List Node → Except String TState
  | [] => .ok st
  | n :: rest => do
    let st1 ← traverseNode ctx scope atTop st n
    traverseList ctx scope atTop st1 rest

end

/-- traverseAst (dist lines 1157-1220): walk the program body from the root
scope with a null capture accumulator, producing the edited buffer and the
set of names already mirrored to exports. -/
def traverseAst (ast : List Node) (body : MS)
    (identifierReplacements : List (String × String))
    (importedBindings importedNamespaces : List String)
    (exportNames : Option (List (String × String))) : Except String (MS × List String) := do
  let scope := Scope.mk (varsOfList ast) none
  let st ← traverseList ⟨identifierReplacements, importedBindings, importedNamespaces, exportNames⟩
    scope true ⟨body, [], none⟩ ast
  .ok (st.body, st.alreadyExported)

/-- gatherImports (dist lines 1988-2011): for each non-batch specifier the
local alias maps to moduleName.specifierName, or moduleName with a default
subscript for default specifiers; passthrough specifiers feed only the
chains map. -/
def gatherImports (imports : List ImportDecl) :
    List (String × String) × List (String × String) :=
  imports.foldl
    (fun acc x =>
      x.specifiers.foldl
        (fun acc s =>
          if s.isBatch then acc
          else
            let name := s.as
            let replacement :=
              x.name ++ (if s.isDefault then "[\x27default\x27]" else "." ++ s.name)
            let ir := if !x.passthrough then objSet acc.2 name replacement else acc.2
            (objSet acc.1 name replacement, ir))
        acc)
    ([], [])

/-- getExportNames (dist lines 2013-2030): non-default exports map their
declared name, or each specifier name, to itself. -/
def getExportNames (exports : List ExportDecl) : List (String × String) :=
  exports.foldl
    (fun acc x =>
      if x.isDefault then acc
      else if x.hasDeclaration then objSet acc (x.name.getD "") (x.name.getD "")
      else
        match x.specifiers with
        | some ss => ss.foldl (fun acc s => objSet acc s s) acc
        | none => acc)
    []

/-- The deconflict loop with explicit fuel (adequate because each clash
lengthens the candidate, so at most one clash per declared name). -/
def deconflictFuel : Nat → String → List String → String
  | 0, name, _ => name
  | fuel + 1, name, declared =>
    if declared.contains name then deconflictFuel fuel ("_" ++ name) declared else name

/-- deconflict (dist lines 2137-2143): prepend underscores until the name is
not declared. -/
def deconflict (name : String) (declared : List String) : String :=
  deconflictFuel (declared.length + 1) name declared

/-- Options accepted by the strict-mode body transformer (header for the
CommonJS require block, intro/outro for wrappers); empty strings model the
absent/falsy values. -/
structure TBOptions where
  header : String := ""
  intro : String := ""
  outro : String := ""
  evilES3SafeReExports : Bool := false
deriving DecidableEq

/-- Removal of one export statement, keeping the declaration (dist lines
2069-2097). -/
def removeExportStmt (body : MS) (x : ExportDecl) : MS :=
  if x.isDefault then
    if x.etype.startsWith "named" then
      (body.remove x.start x.valueStart).insert x.stop
        ("\nexports[\x27default\x27] = " ++ x.name.getD "" ++ ";")
    else
      body.replace x.start x.valueStart "exports[\x27default\x27] = "
  else
    if x.etype = "varDeclaration" || x.etype = "namedFunction" || x.etype = "namedClass" then
      body.remove x.start x.valueStart
    else if x.etype = "named" then
      body.remove x.start x.next
    else
      body.replace x.start x.valueStart "exports[\x27default\x27] = "

/-- The strict-mode single-file body transformer (dist lines 2032-2135,
utils/transformBody): gather import replacements, deconflict the literal name
exports against declared names, traverse, strip import and export syntax,
then emit early and late export blocks and the optional wrapper. -/
def utilsTransformBody (mod : Module) (body : MS) (options : TBOptions) :
    Except String MS := do
  let gi := gatherImports mod.imports
  let chains := gi.1
  let identifierReplacements :=
    objSet gi.2 "exports" (deconflict "exports" (declaredOfList mod.ast))
  let exportNames := getExportNames mod.exports
  let ro := getReadOnlyIdentifiers mod.imports
  let r ← traverseAst mod.ast body identifierReplacements ro.1 ro.2 (some exportNames)
  let body := r.1
  let alreadyExported := r.2
  let body := mod.imports.foldl
    (fun b x => if x.passthrough then b else b.remove x.start x.next) body
  let body := if options.header ≠ "" then body.prepend (options.header ++ "\n\n") else body
  let body := mod.exports.foldl removeExportStmt body
  let tlfn := tlfnOfList mod.ast
  let eb := exportNames.foldl
    (fun (acc : List String × List String) kv =>
      let name := kv.1
      let exportAs := kv.2
      match objGet chains name with
      | some chain =>
        if !options.evilES3SafeReExports then
          (acc.1 ++ ["Object.defineProperty(exports, \x27" ++ exportAs ++
            "\x27, \x7b enumerable: true, get: function () \x7b return " ++ chain ++
            "; \x7d\x7d);"], acc.2)
        else
          (acc.1, acc.2 ++ ["exports." ++ exportAs ++ " = " ++ chain ++ ";"])
      | none =>
        if tlfn.contains name then
          (acc.1 ++ ["exports." ++ exportAs ++ " = " ++ name ++ ";"], acc.2)
        else if !alreadyExported.contains name then
          (acc.1, acc.2 ++ ["exports." ++ exportAs ++ " = " ++ name ++ ";"])
        else (acc.1, acc.2))
    ([], [])
  let body := if eb.1 ≠ [] then (body.trim).prepend (String.intercalate "\n" eb.1 ++ "\n\n")
    else body
  let body := if eb.2 ≠ [] then (body.trim).append ("\n\n" ++ String.intercalate "\n" eb.2)
    else body
  let body :=
    if options.intro ≠ "" && options.outro ≠ "" then
      (((body.indent).prepend options.intro).trimLines).append options.outro
    else body
  .ok body

/-- Character-level splitter with JavaScript split semantics: the empty
string yields one empty field, and separators at the edges yield empty
fields. -/
def splitCharsAux (isSep : Char → Bool) : List Char → List Char → List String
  | [], cur => [String.mk cur.reverse]
  | c :: rest, cur =>
    if isSep c then String.mk cur.reverse :: splitCharsAux isSep rest []
    else splitCharsAux isSep rest (c :: cur)

/-- splitPath (dist lines 509-512): split on forward or back slashes. -/
def splitPath (p : String) : List String :=
  splitCharsAux (fun c => c = '/' || c = '\\') p.data []

/-- Strip one trailing .js, the anchored-regex replace of dist line 649. -/
def stripJsExt (s : String) : String :=
  match s.data.reverse with
  | 's' :: 'j' :: '.' :: rest => String.mk rest.reverse
  | _ => s

/-- Whether the first character of the path is a dot (the importPath test of
dist line 626). -/
def startsWithDot (s : String) : Bool :=
  match s.data with
  | '.' :: _ => true
  | _ => false

/-- The leading dot-dot loop of resolveId (dist lines 637-640): each leading
dot-dot segment pops one importer component. -/
def consumeDotDot : List String → List String → List String × List String
  | importer, [] => (importer, [])
  | importer, s :: rest =>
    if s = ".." then consumeDotDot importer.dropLast rest else (importer, s :: rest)

/-- The leading dot loop of resolveId (dist lines 642-644). -/
def dropDots : List String → List String
  | [] => []
  | s :: rest => if s = "." then dropDots rest else s :: rest

/-- resolveId (dist lines 623-650): non-relative paths pass through; relative
paths shift one leading dot segment, pop the importer basename, run the
dot-dot loop, then the dot loop, and join with slashes; a trailing .js is
stripped either way. -/
def resolveId (importPath importerPath : String) : String :=
  if startsWithDot importPath then
    let importParts :=
      match splitPath importPath with
      | "." :: rest => rest
      | l => l
    let importerParts := (splitPath importerPath).dropLast
    let p := consumeDotDot importerParts importParts
    stripJsExt (String.intercalate "/" (p.1 ++ dropDots p.2))
  else stripJsExt importPath

/-- The collapse step as the specification sentence describes it: leading
dot-dot segments consume one importer directory component each and leading
dot segments are dropped, in whatever order they appear at the front. -/
def collapseLeading : List String → List String → List String × List String
  | importer, [] => (importer, [])
  | importer, s :: rest =>
    if s = ".." then collapseLeading importer.dropLast rest
    else if s = "." then collapseLeading importer rest
    else (importer, s :: rest)

/-- The path rule exactly as claim C3 words it: return the path minus a
trailing .js when it does not begin with a dot, else join dirname of
the importer with the path after collapsing the leading dot and dot-dot
segments. -/
def resolveIdSpec (importPath importerPath : String) : String :=
  if startsWithDot importPath then
    let p := collapseLeading (splitPath importerPath).dropLast (splitPath importPath)
    stripJsExt (String.intercalate "/" (p.1 ++ p.2))
  else stripJsExt importPath

/-- Iterated dropLast. -/
def dropLastN {α : Type} : List α → Nat → List α
  | l, 0 => l
  | l, n + 1 => dropLastN l.dropLast n

/-- The amended description of resolveId: shift one leading dot segment if
present, take the importer dirname, pop it once per segment of the leading
dot-dot run, drop the leading dot run that follows, keep everything else
verbatim, join with slashes and strip one trailing .js. -/
def resolveIdAmended (importPath importerPath : String) : String :=
  if startsWithDot importPath then
    let parts :=
      match splitPath importPath with
      | "." :: rest => rest
      | l => l
    let n := (parts.takeWhile (fun s => s = "..")).length
    let tail := (parts.drop n).dropWhile (fun s => s = ".")
    let ir := dropLastN (splitPath importerPath).dropLast n
    stripJsExt (String.intercalate "/" (ir ++ tail))
  else stripJsExt importPath

/-- moduleLookup as an association list; lookup mirrors property access. -/
def lookupImports : List (String × List String) → String → Option (List String)
  | [], _ => none
  | (k, v) :: rest, id => if k = id then some v else lookupImports rest id

/-- The visit loop of sortModules (dist lines 662-676), with explicit fuel
bounding the depth of descent; each descent marks a previously unseen module
as seen, so fuel equal to the lookup size always suffices and the fuel-out
branch is never taken from sortModules. -/
def sortVisit (L : List (String × List String)) :
    Nat → List String → List String × List String → List String × List String
  | _, [], so => so
  | fuel, id :: rest, so =>
    match lookupImports L id with
    | none => sortVisit L fuel rest so
    | some imps =>
      if id ∈ so.1 then sortVisit L fuel rest so
      else
        match fuel with
        | 0 => sortVisit L 0 rest so
        | fuel' + 1 =>
          let so' := sortVisit L fuel' imps (id :: so.1, so.2)
          sortVisit L (fuel' + 1) rest (so'.1, so'.2 ++ [id])

/-- sortModules (dist lines 658-681): depth-first post-order from the entry
module, skipping external (not looked up) and already seen modules. -/
def sortModules (entry : String) (L : List (String × List String)) : List String :=
  (sortVisit L L.length [entry] ([], [])).2

/-- Module a directly imports b (and a is a local module of the lookup). -/
def edgeTo (L : List (String × List String)) (a b : String) : Prop :=
  ∃ imps, lookupImports L a = some imps ∧ b ∈ imps

/-- A module id that the lookup knows, i.e. a local module. -/
def isLocal (L : List (String × List String)) (d : String) : Bool :=
  (lookupImports L d).isSome

/-- Distinct keys of the lookup. -/
def domKeys (L : List (String × List String)) : List String := (L.map Prod.fst).dedup

/-- How many lookup keys are not yet seen. -/
def unseenCount (L : List (String × List String)) (seen : List String) : Nat :=
  ((domKeys L).filter (fun k => decide (k ∉ seen))).length

/-- The ordering invariant of the visit: every ordered module's local direct
local import is already earlier in the list, or has an import path back
to the importer (a cycle). -/
def GoodOrder (L : List (String × List String)) (ordered : List String) : Prop :=
  ∀ m ∈ ordered, ∀ d, edgeTo L m d → isLocal L d →
    (d ∈ ordered ∧ ordered.indexOf d < ordered.indexOf m) ∨
      Relation.ReflTransGen (edgeTo L) d m

/-- The default-name fragment of populateIdentifierReplacements (dist lines
880-898).  The inputs are the conflict set computed upstream, the union of
the other modules' declared names (otherModulesDeclare), the module name, the
module's top-level names, and the default export record. -/
structure DefaultExportInfo where
  hasDeclaration : Bool
  name : Option String
  value : String
deriving DecidableEq

/-- The identifier chosen for a module's default export (dist lines
886-894), transcribed exactly. -/
def defaultIdentifier (conflicts otherDeclared : List String) (modName : String)
    (topLevelNames : List String) (x : DefaultExportInfo) : String :=
  match x.name with
  | some n =>
    if x.hasDeclaration then
      if conflicts.contains n || otherDeclared.contains n then modName ++ "__" ++ n else n
    else
      if conflicts.contains modName ||
          (x.value ≠ modName && topLevelNames.contains modName) ||
          otherDeclared.contains modName
      then modName ++ "__default" else modName
  | none =>
    if conflicts.contains modName ||
        (x.value ≠ modName && topLevelNames.contains modName) ||
        otherDeclared.contains modName
    then modName ++ "__default" else modName

/-- The rule exactly as claim C4 words it: a named default maps to
moduleName__n when n is in the conflict set and to n otherwise; an anonymous
default maps to moduleName__default when the module name is in the conflict
set and to moduleName otherwise. -/
def defaultIdentifierClaim (conflicts : List String) (modName : String)
    (x : DefaultExportInfo) : String :=
  if x.hasDeclaration && x.name.isSome then
    let n := x.name.getD ""
    if conflicts.contains n then modName ++ "__" ++ n else n
  else
    if conflicts.contains modName then modName ++ "__default" else modName

/-- Whether a default-export name clashes under the amended rule: membership
in the conflict set, or a declaration of the same name anywhere in another
module of the bundle. -/
def nameClashes (conflicts otherDeclared : List String) (n : String) : Bool :=
  conflicts.contains n || otherDeclared.contains n

/-- The amended rule: a named default additionally defers to declarations in
other modules; an anonymous default additionally defers when the module name
is redeclared at this module's top level by something other than the default
value itself, or declared in another module. -/
def defaultIdentifierAmended (conflicts otherDeclared : List String) (modName : String)
    (topLevelNames : List String) (x : DefaultExportInfo) : String :=
  if x.hasDeclaration && x.name.isSome then
    let n := x.name.getD ""
    if nameClashes conflicts otherDeclared n then modName ++ "__" ++ n else n
  else
    if nameClashes conflicts otherDeclared modName ||
        (topLevelNames.contains modName && x.value ≠ modName)
    then modName ++ "__default" else modName

/-- An error raised by the file-reading collaborator, carrying its code. -/
structure IOErr where
  code : String
deriving DecidableEq

/-- Errors during bundle loading: a propagated read error, or a message. -/
inductive BundleErr where
  | io (e : IOErr)
  | msg (s : String)
deriving DecidableEq

/-- Metadata record for a module that turned out to be external. -/
structure ExternalRecord where
  id : String
deriving DecidableEq

/-- The rejection handler on the entry chain of getBundle (dist lines
1499-1505): ENOENT becomes the could-not-find-entry error, anything else is
rethrown unchanged. -/
def getBundleCatch (entry : String) (err : IOErr) : BundleErr :=
  if err.code = "ENOENT" then .msg ("Could not find entry module (" ++ entry ++ ")")
  else .io err

/-- The per-import fetch error handler of fetchModule (dist lines 1549-1563):
ENOENT records the id as an external module (once) and continues; any other
error aborts the bundle. -/
def handleImportFetchError (externalModules : List ExternalRecord)
    (externalModuleLookup : List (String × ExternalRecord)) (xid : String)
    (err : IOErr) :
    Except BundleErr (List ExternalRecord × List (String × ExternalRecord)) :=
  if err.code = "ENOENT" then
    if (objGet externalModuleLookup xid).isSome then
      .ok (externalModules, externalModuleLookup)
    else
      .ok (externalModules ++ [⟨xid⟩], objSet externalModuleLookup xid ⟨xid⟩)
  else .error (.io err)

/-- The typed error of the public surface (dist lines 1902-1917): a message
plus an optional machine-readable code. -/
structure EsError where
  message : String
  code : Option String := none
deriving DecidableEq

/-- A plain Error has no code. -/
def plainErr (s : String) : EsError := ⟨s, none⟩

/-- JavaScript string-option truthiness: absent or empty is falsy. -/
def optTruthy : Option String → Option String
  | none => none
  | some s => if s = "" then none else some s

/-- Whether a string option is falsy. -/
def optionFalsy (o : Option String) : Bool := (optTruthy o).isNone

/-- The public transpile/emit options (dist lines 2553-2584 and builders);
defaultOnlyPresent models the key-presence test of the deprecated flag. -/
structure Options where
  strict : Bool := false
  name : Option String := none
  amdName : Option String := none
  absolutePaths : Bool := false
  sourceMap : Option String := none
  sourceMapFile : Option String := none
  sourceMapSource : Option String := none
  banner : Option String := none
  footer : Option String := none
  defaultOnlyPresent : Bool := false
  evilES3SafeReExports : Bool := false
deriving DecidableEq

/-- The typed error thrown when the universal wrapper lacks a name (dist
lines 1921-1923). -/
def missingNameError : EsError :=
  ⟨"You must supply a \x60name\x60 option for UMD modules", some "MISSING_NAME"⟩

/-- requireName (dist lines 1919-1925): absent or empty name means a typed
MISSING_NAME error. -/
def requireName (options : Options) : Except EsError Unit :=
  if optionFalsy options.name then .error missingNameError
  else .ok ()

/-- One character of the JSON string escape (control characters elided; the
inputs the program quotes are path-shaped). -/
def jsonEscapeChar (c : Char) : String :=
  if c = '"' then "\\\"" else if c = '\\' then "\\\\" else String.singleton c

/-- quote (dist lines 808-810): JSON-escape, then escape single quotes and
wrap in single quotes. -/
def quote (str : String) : String :=
  let j := String.join (str.data.map jsonEscapeChar)
  let j := String.join
    (j.data.map (fun c => if c = '\x27' then "\\\x27" else String.singleton c))
  "\x27" ++ j ++ "\x27"

/-- req (dist lines 812-814). -/
def req (path : String) : String := "require(" ++ quote path ++ ")"

/-- The dep-placeholder shape __depN__ (dist line 817). -/
def isDepPlaceholder (name : String) : Bool :=
  name.startsWith "__dep" && name.endsWith "__" &&
    (let mid := (name.drop 5).dropRight 2
     decide (0 < mid.length) && mid.data.all Char.isDigit)

/-- globalify (dist lines 816-822). -/
def globalify (name : String) : String :=
  if isDepPlaceholder name then "undefined" else "global." ++ name

/-- Replace every tab of a template with the module's indent string. -/
def replaceTabs (s indentStr : String) : String :=
  String.join (s.data.map (fun c => if c = '\t' then indentStr else String.singleton c))

/-- transformExportDeclaration (dist lines 1598-1642): rewrite the single
default export of a defaults-mode module into a return (or a var plus
return), erroring on unknown export types. -/
def transformExportDeclaration (declaration : Option ExportDecl) (body : MS) :
    Except EsError MS :=
  match declaration with
  | none => .ok body
  | some d =>
    if d.etype = "namedFunction" || d.etype = "namedClass" then
      let body := body.remove d.start d.valueStart
      let v := d.name.getD ""
      .ok (if v ≠ "" then body.append ("\nreturn " ++ v ++ ";") else body)
    else if d.etype = "anonFunction" || d.etype = "anonClass" then
      let body1 :=
        if d.isFinal then body.replace d.start d.valueStart "return "
        else body.replace d.start d.valueStart "var __export = "
      let body2 :=
        if body1.originalChar (d.stop - 1) ≠ some ';' then body1.insert d.stop ";" else body1
      .ok (if d.isFinal then body2 else body2.append "\nreturn __export;")
    else if d.etype = "expression" then
      let body := body.remove d.start d.next
      .ok (if d.value ≠ "" then body.append ("\nreturn " ++ d.value ++ ";") else body)
    else
      .error (plainErr ("Unexpected export type \x27" ++ d.etype ++ "\x27"))

/-- The placeholder flush of the import gatherers: push __depN__ names, N
counting from the current length of the name list. -/
def placeholderNames (base : Nat) : Nat → List String
  | 0 => []
  | k + 1 => ("__dep" ++ toString base ++ "__") :: placeholderNames (base + 1) k

/-- getImportSummary (dist lines 2145-2167): first occurrence of each path
contributes the path, and the module name or a placeholder depending on
whether the import has specifiers. -/
def getImportSummary (mod : Module) : List String × List String :=
  let r := mod.imports.foldl
    (fun (acc : List String × List String × List String × Nat) x =>
      let seen := acc.1
      let paths := acc.2.1
      let names := acc.2.2.1
      let ph := acc.2.2.2
      if seen.contains x.path then acc
      else
        if x.specifiers.length ≠ 0 then
          let names := names ++ placeholderNames names.length ph
          (seen ++ [x.path], paths ++ [x.path], names ++ [x.name], 0)
        else
          (seen ++ [x.path], paths ++ [x.path], names, ph + 1))
    ([], [], [], 0)
  (r.2.1, r.2.2.1)

/-- standaloneUmdIntro (dist lines 1853-1868). -/
def standaloneUmdIntro (amdName : Option String) (indentStr : String) : String :=
  let a := match optTruthy amdName with
    | some s => quote s ++ ", "
    | none => ""
  let intro := "(function (factory) \x7b\n\t!(typeof exports === \x27object\x27 && typeof module !== \x27undefined\x27) &&\n\ttypeof define === \x27function\x27 && define.amd ? define(" ++
    a ++ "factory) :\n\tfactory()\n\x7d(function () \x7b \x27use strict\x27;\n\n"
  replaceTabs intro indentStr

/-- defaultUmdIntro (dist lines 1870-1900). -/
def defaultUmdIntro (hasExports : Bool) (importPaths importNames : List String)
    (amdName : Option String) (absolutePaths : Bool) (name : Option String)
    (indentStr : String) : String :=
  let a := match optTruthy amdName with
    | some s => quote s ++ ", "
    | none => ""
  let amdDeps :=
    if decide (0 < importPaths.length) then
      "[" ++ String.intercalate ", "
        ((if absolutePaths then importPaths.map (fun p => resolveId p (amdName.getD ""))
          else importPaths).map quote) ++ "], "
    else ""
  let cjsDeps := String.intercalate ", " (importPaths.map req)
  let globalDeps := String.intercalate ", " (importNames.map globalify)
  let args := String.intercalate ", " importNames
  let cjsExport := (if hasExports then "module.exports = " else "") ++
    "factory(" ++ cjsDeps ++ ")"
  let globalExport := (if hasExports then "global." ++ name.getD "" ++ " = " else "") ++
    "factory(" ++ globalDeps ++ ")"
  let intro := "(function (global, factory) \x7b\n\ttypeof exports === \x27object\x27 && typeof module !== \x27undefined\x27 ? " ++
    cjsExport ++ " :\n\ttypeof define === \x27function\x27 && define.amd ? define(" ++
    a ++ amdDeps ++ "factory) :\n\t" ++ globalExport ++
    "\n\x7d(this, function (" ++ args ++ ") \x7b \x27use strict\x27;\n\n"
  replaceTabs intro indentStr

/-- An external module of a bundle: metadata only. -/
structure ExternalModuleB where
  id : String
  name : String := ""
  needsDefault : Bool := false
  needsNamed : Bool := false
deriving DecidableEq

/-- strictUmdIntro (dist lines 2230-2264). -/
def strictUmdIntro (hasExports : Bool) (importPaths importNames : List String)
    (externalDefaults : List ExternalModuleB) (amdName : Option String)
    (absolutePaths : Bool) (name : Option String) (indentStr : String) : String :=
  let a := match optTruthy amdName with
    | some s => "\x27" ++ s ++ "\x27, "
    | none => ""
  let amdDeps :=
    if hasExports || decide (0 < importPaths.length) then
      "[" ++ String.intercalate ", "
        (((if hasExports then ["exports"] else []) ++
          (if absolutePaths then importPaths.map (fun p => resolveId p (amdName.getD ""))
           else importPaths)).map quote) ++ "], "
    else ""
  let cjsDeps := String.intercalate ", "
    ((if hasExports then ["exports"] else []) ++ importPaths.map req)
  let globalDeps := String.intercalate ", "
    ((if hasExports then ["(global." ++ name.getD "" ++ " = \x7b\x7d)"] else []) ++
      importNames.map globalify)
  let args := String.intercalate ", "
    ((if hasExports then ["exports"] else []) ++ importNames)
  let defaultsBlock :=
    if decide (0 < externalDefaults.length) then
      String.intercalate "\n" (externalDefaults.map (fun x =>
        "\t" ++ (if x.needsNamed then "var " ++ x.name ++ "__default" else x.name) ++
        " = (\x27default\x27 in " ++ x.name ++ " ? " ++ x.name ++
        "[\x27default\x27] : " ++ x.name ++ ");")) ++ "\n\n"
    else ""
  let intro := "(function (global, factory) \x7b\n\ttypeof exports === \x27object\x27 && typeof module !== \x27undefined\x27 ? factory(" ++
    cjsDeps ++ ") :\n\ttypeof define === \x27function\x27 && define.amd ? define(" ++
    a ++ amdDeps ++ "factory) :\n\tfactory(" ++ globalDeps ++
    ")\n\x7d(this, function (" ++ args ++ ") \x7b \x27use strict\x27;\n\n" ++ defaultsBlock
  replaceTabs intro indentStr

/-- Source map object: collaborator model keeping the inputs that matter. -/
structure SMap where
  file : Option String
  source : Option String
deriving DecidableEq

/-- map.toUrl(): a deterministic data url (collaborator model). -/
def SMap.toUrl (_ : SMap) : String := "data:application/json;charset=utf-8;base64,AA"

/-- body.generateMap (collaborator model). -/
def generateMap (_ : MS) (file src : Option String) : SMap := ⟨file, src⟩

/-- isAbsolutePath (dist lines 1707-1709): a path starting with a slash,
backslash, or a drive letter followed by a colon and one of those. -/
def isAbsolutePath (path : String) : Bool :=
  match path.data with
  | [] => false
  | c :: rest =>
    if c = '/' || c = '\\' then true
    else
      match rest with
      | ':' :: d :: _ => c.isAlpha && (d = '/' || d = '\\')
      | _ => false

/-- Strip the common head of two component lists (the shift loop of
getRelativePath, dist lines 1719-1722). -/
def stripCommon : List String → List String → List String × List String
  | a :: as, b :: bs => if a = b then stripCommon as bs else (a :: as, b :: bs)
  | as, bs => (as, bs)

/-- getRelativePath (dist lines 1711-1733). -/
def getRelativePath (f t : String) : String :=
  let p := stripCommon (splitPath f).dropLast (splitPath t)
  if decide (0 < p.1.length) then
    String.intercalate "/" (p.1.map (fun _ => "..") ++ p.2)
  else
    String.intercalate "/" ("." :: p.2)

/-- The code and map pair a builder returns. -/
structure PResult where
  code : String
  map : Option SMap
deriving DecidableEq

/-- The banner and footer wrapping of packageResult (dist lines 1650-1651). -/
def packageBody (body : MS) (options : Options) : MS :=
  let body := match options.banner with
    | some b => body.prepend b
    | none => body
  match options.footer with
  | some f => body.append f
  | none => body

/-- packageResult (dist lines 1646-1705): banner and footer, the rendered
code, and the source-map branch with its two option checks; the deprecation
shim of the returned toString only affects the console, not the result. -/
def packageResult (body0 : MS) (options : Options) (isBundle : Bool) :
    Except EsError PResult :=
  let body := packageBody body0 options
  let code := body.render
  match options.sourceMap with
  | some sm =>
    if sm ≠ "inline" && options.sourceMapFile = none then
      .error (plainErr "You must provide \x60sourceMapFile\x60 option")
    else if !isBundle && options.sourceMapSource = none then
      .error (plainErr "You must provide \x60sourceMapSource\x60 option")
    else
      let sourceMapFile : Option String :=
        if sm = "inline" then none
        else
          let f := options.sourceMapFile.getD ""
          some (if isAbsolutePath f then f else "./" ++ ((splitPath f).getLast?).getD "")
      let map := generateMap body sourceMapFile
        (if sourceMapFile.isSome && !isBundle then
          some (getRelativePath (sourceMapFile.getD "") (options.sourceMapSource.getD ""))
        else none)
      if sm = "inline" then
        .ok ⟨code ++ "\n//# sourceMappingURL=" ++ map.toUrl, none⟩
      else
        .ok ⟨code ++ "\n//# sourceMappingURL=" ++ sourceMapFile.getD "" ++ ".map", some map⟩
  | none => .ok ⟨code, none⟩

/-- The import gathering shared by the defaults-mode amd and umd builders
(dist lines 1777-1798 and 1944-1963): dedupe by path, collect names or count
placeholders, and remove each import span. -/
def gatherDefaultsImports (imports : List ImportDecl) (resolvePaths : Bool)
    (amdName : Option String) (body : MS) :
    List String × List String × List String × Nat × MS :=
  imports.foldl
    (fun (acc : List String × List String × List String × Nat × MS) x =>
      let seen := acc.1
      let paths := acc.2.1
      let names := acc.2.2.1
      let ph := acc.2.2.2.1
      let body := acc.2.2.2.2
      let path := if resolvePaths then resolveId x.path (amdName.getD "") else x.path
      let next :=
        if seen.contains path then (seen, paths, names, ph)
        else
          match optTruthy x.as with
          | some a =>
            let names := names ++ placeholderNames names.length ph
            (seen ++ [path], paths ++ [path], names ++ [a], 0)
          | none => (seen ++ [path], paths ++ [path], names, ph + 1)
      (next.1, next.2.1, next.2.2.1, next.2.2.2, body.remove x.start x.next))
    ([], [], [], 0, body)

/-- The defaults-mode amd builder (dist lines 1770-1816). -/
def amdDefaults (mod : Module) (options : Options) : Except EsError PResult := do
  let st := gatherDefaultsImports mod.imports options.absolutePaths options.amdName mod.body
  let paths := st.2.1
  let names := st.2.2.1
  let body ← transformExportDeclaration mod.exports.head? st.2.2.2.2
  let a := match optTruthy options.amdName with
    | some s => "\x27" ++ s ++ "\x27, "
    | none => ""
  let pathsStr :=
    if decide (0 < paths.length) then
      "[" ++ String.intercalate ", " (paths.map quote) ++ "], "
    else ""
  let intro := "define(" ++ a ++ pathsStr ++ "function (" ++
    String.intercalate ", " names ++ ") \x7b\n\n"
  let body := ((((body.trim).prepend "\x27use strict\x27;\n\n").trim).indent).prepend intro
  let body := body.append "\n\n\x7d);"
  packageResult body options false

/-- The defaults-mode cjs builder (dist lines 1818-1851). -/
def cjsDefaults (mod : Module) (options : Options) : Except EsError PResult := do
  let r := mod.imports.foldl
    (fun (acc : List String × MS) x =>
      let seen := acc.1
      let body := acc.2
      if !(seen.contains x.path) then
        let replacement :=
          if x.isEmpty then req x.path ++ ";"
          else "var " ++ (x.as.getD "") ++ " = " ++ req x.path ++ ";"
        (seen ++ [x.path], body.replace x.start x.stop replacement)
      else (seen, body.remove x.start x.next))
    ([], mod.body)
  let body := r.2
  let body := match mod.exports.head? with
    | some ed =>
      if ed.etype = "namedFunction" || ed.etype = "namedClass" then
        (body.remove ed.start ed.valueStart).replace ed.stop ed.stop
          ("\nmodule.exports = " ++ ed.name.getD "" ++ ";")
      else body.replace ed.start ed.valueStart "module.exports = "
    | none => body
  let body := (body.prepend "\x27use strict\x27;\n\n").trimLines
  packageResult body options false

/-- The defaults-mode umd builder (dist lines 1927-1980): the MISSING_NAME
check runs before anything else. -/
def umdDefaults (mod : Module) (options : Options) : Except EsError PResult := do
  let _ ← requireName options
  let hasImports := decide (0 < mod.imports.length)
  let hasExports := decide (0 < mod.exports.length)
  if !hasImports && !hasExports then
    let intro := standaloneUmdIntro options.amdName (mod.body.getIndentString)
    let body := (((mod.body.indent).prepend intro).trimLines).append "\n\n\x7d));"
    packageResult body options false
  else
    let st := gatherDefaultsImports mod.imports false none mod.body
    let body ← transformExportDeclaration mod.exports.head? st.2.2.2.2
    let intro := defaultUmdIntro hasExports st.2.1 st.2.2.1 options.amdName
      options.absolutePaths options.name (mod.body.getIndentString)
    let body := (((body.indent).prepend intro).trimLines).append "\n\n\x7d));"
    packageResult body options false

/-- The strict-mode amd builder (dist lines 2173-2198). -/
def amdStrict (mod : Module) (options : Options) : Except EsError PResult := do
  let s := getImportSummary mod
  let importPaths := if decide (0 < mod.exports.length) then "exports" :: s.1 else s.1
  let importNames := if decide (0 < mod.exports.length) then "exports" :: s.2 else s.2
  let a := match optTruthy options.amdName with
    | some nm => "\x27" ++ nm ++ "\x27, "
    | none => ""
  let pathsStr :=
    if decide (0 < importPaths.length) then
      "[" ++ String.intercalate ", "
        ((if options.absolutePaths then
            importPaths.map (fun p => resolveId p (options.amdName.getD ""))
          else importPaths).map quote) ++ "], "
    else ""
  let intro := replaceTabs
    ("define(" ++ a ++ pathsStr ++ "function (" ++ String.intercalate ", " importNames ++
      ") \x7b\n\n\t\x27use strict\x27;\n\n")
    (mod.body.getIndentString)
  let body ← Except.mapError plainErr
    (utilsTransformBody mod mod.body ⟨"", intro, "\n\n\x7d);", options.evilES3SafeReExports⟩)
  packageResult body options false

/-- The strict-mode cjs builder (dist lines 2200-2228). -/
def cjsStrict (mod : Module) (options : Options) : Except EsError PResult := do
  let ib := mod.imports.foldl
    (fun (acc : List String × List String) x =>
      let seen := acc.1
      let block := acc.2
      if !(seen.contains x.path) then
        let replacement :=
          if x.isEmpty then req x.path ++ ";"
          else "var " ++ x.name ++ " = " ++ req x.path ++ ";"
        (seen ++ [x.path], block ++ [replacement])
      else (seen, block))
    ([], [])
  let importBlock := String.intercalate "\n" ib.2
  let body ← Except.mapError plainErr
    (utilsTransformBody mod mod.body ⟨importBlock, "", "", options.evilES3SafeReExports⟩)
  let body := (body.prepend "\x27use strict\x27;\n\n").trimLines
  packageResult body options false

/-- The strict-mode umd builder (dist lines 2266-2297): the MISSING_NAME
check runs before anything else. -/
def umdStrict (mod : Module) (options : Options) : Except EsError PResult := do
  let _ ← requireName options
  let s := getImportSummary mod
  let hasImports := decide (0 < mod.imports.length)
  let hasExports := decide (0 < mod.exports.length)
  let intro :=
    if !hasImports && !hasExports then
      standaloneUmdIntro options.amdName (mod.body.getIndentString)
    else
      strictUmdIntro hasExports s.1 s.2 [] options.amdName options.absolutePaths
        options.name (mod.body.getIndentString)
  let body ← Except.mapError plainErr
    (utilsTransformBody mod mod.body ⟨"", intro, "\n\n\x7d));", options.evilES3SafeReExports⟩)
  packageResult body options false

/-- A combined bundle, as the bundle builders consume it. -/
structure Bundle where
  entryModule : Module
  externalModules : List ExternalModuleB
  body : MS

/-- getExportBlock (dist lines 2395-2398). -/
def getExportBlock (entry : Module) : String :=
  "exports[\x27default\x27] = " ++
    (objGet entry.identifierReplacements "default").getD "" ++ ";"

/-- The defaults-mode bundle umd builder (dist lines 2352-2387): the
MISSING_NAME check runs before anything else. -/
def bundleUmdDefaults (bundle : Bundle) (options : Options) : Except EsError PResult := do
  let _ ← requireName options
  let entry := bundle.entryModule
  let hasImports := decide (0 < bundle.externalModules.length)
  let hasExports := decide (0 < entry.exports.length)
  if !hasImports && !hasExports then
    let intro := standaloneUmdIntro options.amdName (bundle.body.getIndentString)
    let body := (((bundle.body.indent).prepend intro).trimLines).append "\n\n\x7d));"
    packageResult body options true
  else
    let body := match optTruthy (objGet entry.identifierReplacements "default") with
      | some dn => bundle.body.append ("\n\nreturn " ++ dn ++ ";")
      | none => bundle.body
    let intro := defaultUmdIntro hasExports (bundle.externalModules.map (fun m => m.id))
      (bundle.externalModules.map (fun m => m.name)) options.amdName false options.name
      (bundle.body.getIndentString)
    let body := (((body.indent).prepend intro).trimLines).append "\n\n\x7d));"
    packageResult body options true

/-- The strict-mode bundle umd builder (dist lines 2474-2509): the
MISSING_NAME check runs before anything else. -/
def bundleUmdStrict (bundle : Bundle) (options : Options) : Except EsError PResult := do
  let _ ← requireName options
  let entry := bundle.entryModule
  let hasImports := decide (0 < bundle.externalModules.length)
  let hasExports := decide (0 < entry.exports.length)
  if !hasImports && !hasExports then
    let intro := standaloneUmdIntro options.amdName (bundle.body.getIndentString)
    let body := (((bundle.body.indent).prepend intro).trimLines).append "\n\n\x7d));"
    packageResult body options true
  else
    let body :=
      if hasExports && entry.defaultExport.isSome then
        bundle.body.append ("\n\n" ++ getExportBlock entry)
      else bundle.body
    let intro := strictUmdIntro hasExports (bundle.externalModules.map (fun m => m.id))
      (bundle.externalModules.map (fun m => m.name))
      (bundle.externalModules.filter (fun m => m.needsDefault)) options.amdName false
      options.name (bundle.body.getIndentString)
    let body := (((body.indent).prepend intro).trimLines).append "\n\n\x7d));"
    packageResult body options true

/-- hasNamedImports (dist lines 18-26). -/
def hasNamedImports (mod : Module) : Bool := mod.imports.any (fun x => x.isNamed)

/-- hasNamedExports (dist lines 28-36). -/
def hasNamedExports (mod : Module) : Bool := mod.exports.any (fun x => !x.isDefault)

/-- The deprecation console message (dist lines 2550-2551). -/
def deprecateMessage : String :=
  "options.defaultOnly has been deprecated, and is now standard behaviour. To use named imports/exports, pass \x60strict: true\x60."

/-- The three output formats. -/
inductive Format where
  | amd
  | cjs
  | umd
deriving DecidableEq

/-- moduleBuilders dispatch (dist lines 1982-1986, 2299-2309). -/
def runBuilder (format : Format) (strict : Bool) (mod : Module) (options : Options) :
    Except EsError PResult :=
  if !strict then
    match format with
    | .amd => amdDefaults mod options
    | .cjs => cjsDefaults mod options
    | .umd => umdDefaults mod options
  else
    match format with
    | .amd => amdStrict mod options
    | .cjs => cjsStrict mod options
    | .umd => umdStrict mod options

/-- transpileMethod (dist lines 2553-2584), with the parse stage factored
into the module argument (the parser collaborator is deterministic in the
source).  The one-shot deprecation flag is threaded explicitly; the result
also carries the console lines the run would print. -/
def transpileCore (format : Format) (mod : Module) (options : Options)
    (alreadyWarned : Bool) : Except EsError PResult × Bool × List String :=
  let logs : List String :=
    if options.defaultOnlyPresent && !alreadyWarned then [deprecateMessage] else []
  let warned := alreadyWarned || options.defaultOnlyPresent
  let result : Except EsError PResult :=
    if options.absolutePaths && optionFalsy options.amdName then
      .error (plainErr
        "You must specify an \x60amdName\x60 in order to use the \x60absolutePaths\x60 option")
    else if !options.strict then
      if hasNamedImports mod || hasNamedExports mod then
        .error (plainErr
          "You must be in strict mode (pass \x60strict: true\x60) to use named imports or exports")
      else runBuilder format false mod options
    else runBuilder format true mod options
  (result, warned, logs)

/-- A traversal context that cannot produce edits: no imported bindings or
namespaces, an export map with no entries, and a replacement map in which
every entry is the identity. -/
def IdCtx (ctx : TCtx) : Prop :=
  ctx.importedBindings = [] ∧ ctx.importedNamespaces = [] ∧
  ctx.exportNames = some [] ∧
  (∀ k v, objGet ctx.identifierReplacements k = some v → v = k)

/-- A minimal module for witnesses: an anonymous default export of 42,
scenario S1. -/
def sampleModule : Module :=
  { source := "export default 42;",
    ast := [.exprStmt (.lit 15 17) 0 18],
    exports := [{ etype := "expression", isDefault := true, name := some "default",
                  value := "42", start := 0, stop := 18, valueStart := 15, next := 18,
                  isFinal := true }],
    body := MS.fresh "export default 42;" }

/-- A minimal bundle for witnesses. -/
def sampleBundle : Bundle :=
  { entryModule := sampleModule, externalModules := [], body := MS.fresh "var x = 42;" }

/-- The dot-dot loop computes an iterated pop and a drop of the leading
dot-dot run. -/
theorem consumeDotDot_eq (l : List String) : ∀ importer : List String,
    consumeDotDot importer l =
      (dropLastN importer (l.takeWhile (fun s => s = "..")).length,
       l.drop (l.takeWhile (fun s => s = "..")).length) := by
  induction l with
  | nil => intro importer; simp [consumeDotDot, dropLastN]
  | cons hd tl ih =>
    intro importer
    by_cases h : hd = ".."
    · subst h
      simp [consumeDotDot, List.takeWhile, ih, dropLastN]
    · simp [consumeDotDot, List.takeWhile, h, dropLastN]

/-- The dot loop is a dropWhile of leading dots. -/
theorem dropDots_eq (l : List String) :
    dropDots l = l.dropWhile (fun s => s = ".") := by
  induction l with
  | nil => rfl
  | cons hd tl ih =>
    by_cases h : hd = "."
    · simp [dropDots, List.dropWhile, h, ih]
    · simp [dropDots, List.dropWhile, h]

/-- A successful lookup result is an entry of the association list. -/
theorem lookupImports_mem {L : List (String × List String)} {a : String}
    {v : List String} (h : lookupImports L a = some v) : (a, v) ∈ L := by
  induction L with
  | nil => simp [lookupImports] at h
  | cons p rest ih =>
    obtain ⟨k, w⟩ := p
    by_cases hk : k = a
    · subst hk
      simp [lookupImports] at h
      simp [h]
    · simp [lookupImports, hk] at h
      exact List.mem_cons_of_mem _ (ih h)

/-- A looked-up id is among the distinct keys. -/
theorem mem_domKeys_of_lookup {L : List (String × List String)} {a : String}
    {v : List String} (h : lookupImports L a = some v) : a ∈ domKeys L := by
  have : a ∈ L.map Prod.fst := List.mem_map.mpr ⟨(a, v), lookupImports_mem h, rfl⟩
  exact List.mem_dedup.mpr this

/-- Filtering with a stronger predicate never yields a longer list. -/
theorem length_filter_le_of_imp {α : Type} (l : List α) (p q : α → Bool)
    (h : ∀ a, p a = true → q a = true) :
    (l.filter p).length ≤ (l.filter q).length := by
  induction l with
  | nil => simp
  | cons hd tl ih =>
    by_cases hp : p hd = true
    · have hq := h hd hp
      simp [List.filter, hp, hq]
      omega
    · rw [Bool.not_eq_true] at hp
      simp only [List.filter, hp]
      by_cases hq : q hd = true
      · simp [hq]; omega
      · rw [Bool.not_eq_true] at hq
        simp [hq]
        exact ih

/-- Marking a fresh key as seen strictly decreases the unseen count. -/
theorem unseenCount_cons_lt {L : List (String × List String)} {a : String}
    {seen : List String} (ha : a ∈ domKeys L) (hs : a ∉ seen) :
    unseenCount L (a :: seen) < unseenCount L seen := by
  unfold unseenCount
  have key : ∀ l : List String, a ∈ l →
      (l.filter (fun k => decide (k ∉ a :: seen))).length <
        (l.filter (fun k => decide (k ∉ seen))).length := by
    intro l hl
    induction l with
    | nil => simp at hl
    | cons hd tl ih =>
      by_cases hhd : hd = a
      · subst hhd
        have h1 : decide (hd ∉ hd :: seen) = false := by simp
        have h2 : decide (hd ∉ seen) = true := by simpa using hs
        simp only [List.filter, h1, h2, List.length_cons]
        have := length_filter_le_of_imp tl (fun k => decide (k ∉ hd :: seen))
          (fun k => decide (k ∉ seen)) ?_
        · omega
        · intro b hb
          simp at hb ⊢
          exact hb.2
      · have hl' : a ∈ tl := by
          rcases List.mem_cons.mp hl with h | h
          · exact absurd h.symm hhd
          · exact h
        by_cases hmem : hd ∈ seen
        · have h1 : decide (hd ∉ a :: seen) = false := by simp [hmem]
          have h2 : decide (hd ∉ seen) = false := by simp [hmem]
          simp only [List.filter, h1, h2]
          exact ih hl'
        · have h1 : decide (hd ∉ a :: seen) = true := by
            simp [hmem]
            exact fun h => absurd h hhd
          have h2 : decide (hd ∉ seen) = true := by simpa using hmem
          simp only [List.filter, h1, h2, List.length_cons]
          have := ih hl'
          omega
  exact key _ ha

/-- The unseen count is antitone in the seen set. -/
theorem unseenCount_le_of_subset {L : List (String × List String)}
    {seen seen' : List String} (h : ∀ x ∈ seen, x ∈ seen') :
    unseenCount L seen' ≤ unseenCount L seen := by
  unfold unseenCount
  apply length_filter_le_of_imp
  intro a ha
  simp at ha ⊢
  intro hmem
  exact ha (h a hmem)

/-- Initially every key is unseen, and there are at most L.length of them. -/
theorem unseenCount_nil_le (L : List (String × List String)) :
    unseenCount L [] ≤ L.length := by
  unfold unseenCount
  calc ((domKeys L).filter _).length ≤ (domKeys L).length :=
        (List.filter_sublist _).length_le
    _ ≤ (L.map Prod.fst).length := (List.dedup_sublist _).length_le
    _ = L.length := List.length_map _ _

/-- A key that exists and is unseen witnesses a positive unseen count. -/
theorem unseenCount_pos {L : List (String × List String)} {seen : List String}
    {a : String} (ha : a ∈ domKeys L) (hs : a ∉ seen) : 0 < unseenCount L seen := by
  unfold unseenCount
  have hmem : a ∈ (domKeys L).filter (fun k => decide (k ∉ seen)) :=
    List.mem_filter.mpr ⟨ha, by simpa using hs⟩
  exact List.length_pos.mpr (List.ne_nil_of_mem hmem)

/-- The source of an edge is a local module. -/
theorem edge_source_local {L : List (String × List String)} {a b : String}
    (h : edgeTo L a b) : isLocal L a = true := by
  obtain ⟨imps, hl, _⟩ := h
  simp [isLocal, hl]

/-- The source of a nonempty import path is a local module. -/
theorem transGen_source_local {L : List (String × List String)} {a b : String}
    (h : Relation.TransGen (edgeTo L) a b) : isLocal L a = true := by
  induction h with
  | single h => exact edge_source_local h
  | tail _ _ ih => exact ih

/-- Along an import path the rank of a certificate can only go down. -/
theorem reach_rank_le {L : List (String × List String)} {rank : String → Nat}
    (hrank : ∀ p ∈ L, ∀ b ∈ p.2, rank b < rank p.1) {a b : String}
    (h : Relation.ReflTransGen (edgeTo L) a b) : rank b ≤ rank a := by
  induction h with
  | refl => exact le_refl _
  | tail _ hbc ih =>
    obtain ⟨imps, hl, hmem⟩ := hbc
    exact le_trans (le_of_lt (hrank _ (lookupImports_mem hl) _ hmem)) ih

/-- Main invariant of the visit loop: the seen set only grows and always
equals ordered plus the stack, the ordered list grows at the end with fresh
modules only and stays duplicate-free, the ordering invariant is preserved,
and every processed local id ends up seen.  The stack argument is the chain
of in-progress ancestors; each of them can reach every id still to be
processed at this level. -/
theorem sortVisit_main (L : List (String × List String)) :
    ∀ (fuel : Nat) (ids : List String), ∀ (seen ordered stk : List String),
    unseenCount L seen ≤ fuel →
    (∀ x, x ∈ seen ↔ x ∈ ordered ∨ x ∈ stk) →
    (∀ s ∈ stk, ∀ x ∈ ids, Relation.ReflTransGen (edgeTo L) s x) →
    ordered.Nodup →
    GoodOrder L ordered →
    (∀ x ∈ seen, x ∈ (sortVisit L fuel ids (seen, ordered)).1) ∧
    (∀ x ∈ (sortVisit L fuel ids (seen, ordered)).2, x ∈ ordered ∨ x ∉ seen) ∧
    ordered <+: (sortVisit L fuel ids (seen, ordered)).2 ∧
    (∀ x, x ∈ (sortVisit L fuel ids (seen, ordered)).1 ↔
      x ∈ (sortVisit L fuel ids (seen, ordered)).2 ∨ x ∈ stk) ∧
    (sortVisit L fuel ids (seen, ordered)).2.Nodup ∧
    GoodOrder L (sortVisit L fuel ids (seen, ordered)).2 ∧
    (∀ x ∈ ids, isLocal L x = true → x ∈ (sortVisit L fuel ids (seen, ordered)).1) := by
  intro fuel
  induction fuel using Nat.strong_induction_on with
  | _ fuel IHf =>
  intro ids
  induction ids with
  | nil =>
    intro seen ordered stk h1 h2 h3 h4 h5
    have heq : sortVisit L fuel [] (seen, ordered) = (seen, ordered) := by
      simp [sortVisit]
    rw [heq]
    exact ⟨fun x hx => hx, fun x hx => Or.inl hx, List.prefix_refl _, h2, h4, h5,
      fun x hx _ => absurd hx (List.not_mem_nil x)⟩
  | cons id rest IHl =>
    intro seen ordered stk h1 h2 h3 h4 h5
    have h3rest : ∀ s ∈ stk, ∀ x ∈ rest, Relation.ReflTransGen (edgeTo L) s x :=
      fun s hs x hx => h3 s hs x (List.mem_cons_of_mem _ hx)
    cases hl : lookupImports L id with
    | none =>
      have IH := IHl seen ordered stk h1 h2 h3rest h4 h5
      have heq : sortVisit L fuel (id :: rest) (seen, ordered) =
          sortVisit L fuel rest (seen, ordered) := by
        simp [sortVisit, hl]
      rw [heq]
      refine ⟨IH.1, IH.2.1, IH.2.2.1, IH.2.2.2.1, IH.2.2.2.2.1, IH.2.2.2.2.2.1, ?_⟩
      intro x hx hxl
      rcases List.mem_cons.mp hx with rfl | hx'
      · rw [isLocal, hl] at hxl
        simp at hxl
      · exact IH.2.2.2.2.2.2 x hx' hxl
    | some imps =>
      by_cases hseen : id ∈ seen
      · have IH := IHl seen ordered stk h1 h2 h3rest h4 h5
        have heq : sortVisit L fuel (id :: rest) (seen, ordered) =
            sortVisit L fuel rest (seen, ordered) := by
          simp [sortVisit, hl, hseen]
        rw [heq]
        refine ⟨IH.1, IH.2.1, IH.2.2.1, IH.2.2.2.1, IH.2.2.2.2.1, IH.2.2.2.2.2.1, ?_⟩
        intro x hx hxl
        rcases List.mem_cons.mp hx with rfl | hx'
        · exact IH.1 x hseen
        · exact IH.2.2.2.2.2.2 x hx' hxl
      · -- id is local and unseen: we descend
        have hdom : id ∈ domKeys L := mem_domKeys_of_lookup hl
        match fuel, h1 with
        | 0, h1 =>
          exact absurd (lt_of_lt_of_le (unseenCount_pos hdom hseen) h1) (by simp)
        | n + 1, h1 =>
        have heq : sortVisit L (n + 1) (id :: rest) (seen, ordered) =
            sortVisit L (n + 1) rest
              ((sortVisit L n imps (id :: seen, ordered)).1,
               (sortVisit L n imps (id :: seen, ordered)).2 ++ [id]) := by
          simp [sortVisit, hl, hseen]
        -- the nested descent into the imports of id
        have hn1 : unseenCount L (id :: seen) ≤ n := by
          have := unseenCount_cons_lt hdom hseen
          omega
        have hn2 : ∀ x, x ∈ id :: seen ↔ x ∈ ordered ∨ x ∈ id :: stk := by
          intro x
          simp only [List.mem_cons, h2 x]
          tauto
        have hn3 : ∀ s ∈ id :: stk, ∀ x ∈ imps,
            Relation.ReflTransGen (edgeTo L) s x := by
          intro s hs x hx
          rcases List.mem_cons.mp hs with rfl | hs'
          · exact Relation.ReflTransGen.single ⟨imps, hl, hx⟩
          · exact Relation.ReflTransGen.tail
              (h3 s hs' id (List.mem_cons_self _ _)) ⟨imps, hl, hx⟩
        have IHn := IHf n (Nat.lt_succ_self n) imps (id :: seen) ordered (id :: stk)
          hn1 hn2 hn3 h4 h5
        obtain ⟨n1, n2, n3, n4, n5, n6, n7⟩ := IHn
        set s1 := (sortVisit L n imps (id :: seen, ordered)).1 with hs1
        set o1 := (sortVisit L n imps (id :: seen, ordered)).2 with ho1
        have hidnotord : id ∉ ordered := fun h => hseen ((h2 id).mpr (Or.inl h))
        have hidnoto1 : id ∉ o1 := by
          intro h
          rcases n2 id h with h' | h'
          · exact hidnotord h'
          · exact h' (List.mem_cons_self _ _)
        have hidseen1 : id ∈ s1 := n1 id (List.mem_cons_self _ _)
        -- hypotheses for the continuation over rest at the appended state
        have hc1 : unseenCount L s1 ≤ n + 1 := by
          have hsub : ∀ x ∈ (id : String) :: seen, x ∈ s1 := n1
          have := unseenCount_le_of_subset (L := L) hsub
          omega
        have hc2 : ∀ x, x ∈ s1 ↔ x ∈ o1 ++ [id] ∨ x ∈ stk := by
          intro x
          rw [n4 x]
          simp only [List.mem_append, List.mem_cons, List.mem_singleton]
          tauto
        have hc4 : (o1 ++ [id]).Nodup := by
          rw [List.nodup_append]
          exact ⟨n5, List.nodup_singleton _, by
            intro a ha hmem
            rw [List.mem_singleton] at hmem
            subst hmem
            exact hidnoto1 ha⟩
        have hc5 : GoodOrder L (o1 ++ [id]) := by
          intro m hm d hedge hdl
          rcases List.mem_append.mp hm with hmo | hmid
          · rcases n6 m hmo d hedge hdl with ⟨hdo, hidx⟩ | hreach
            · left
              refine ⟨List.mem_append_left _ hdo, ?_⟩
              rw [List.indexOf_append_of_mem hdo, List.indexOf_append_of_mem hmo]
              exact hidx
            · right; exact hreach
          · rw [List.mem_singleton] at hmid
            subst hmid
            obtain ⟨imps', hl', hdmem⟩ := hedge
            rw [hl] at hl'
            injection hl' with hl'
            subst hl'
            have hds1 : d ∈ s1 := n7 d hdmem hdl
            rcases (n4 d).mp hds1 with hdo | hdstk
            · left
              refine ⟨List.mem_append_left _ hdo, ?_⟩
              rw [List.indexOf_append_of_mem hdo,
                List.indexOf_append_of_not_mem hidnoto1, List.indexOf_cons_self]
              have := List.indexOf_lt_length.mpr hdo
              omega
            · rcases List.mem_cons.mp hdstk with rfl | hdstk'
              · right; exact Relation.ReflTransGen.refl
              · right; exact h3 d hdstk' m (List.mem_cons_self _ _)
        have IHc := IHl s1 (o1 ++ [id]) stk hc1 hc2 h3rest hc4 hc5
        obtain ⟨f1, f2, f3, f4, f5, f6, f7⟩ := IHc
        rw [heq]
        refine ⟨?_, ?_, ?_, f4, f5, f6, ?_⟩
        · intro x hx
          exact f1 x (n1 x (List.mem_cons_of_mem _ hx))
        · intro x hx
          rcases f2 x hx with hx' | hx'
          · rcases List.mem_append.mp hx' with hxo | hxid
            · rcases n2 x hxo with h' | h'
              · exact Or.inl h'
              · exact Or.inr (fun hc => h' (List.mem_cons_of_mem _ hc))
            · rw [List.mem_singleton] at hxid
              subst hxid
              exact Or.inr hseen
          · exact Or.inr (fun hc => hx' (n1 x (List.mem_cons_of_mem _ hc)))
        · exact n3.trans ((List.prefix_append o1 [id]).trans f3)
        · intro x hx hxl
          rcases List.mem_cons.mp hx with rfl | hx'
          · exact f1 x hidseen1
          · exact f7 x hx' hxl

/-- The sorted output is duplicate-free and satisfies the ordering
invariant. -/
theorem sortModules_good (L : List (String × List String)) (entry : String) :
    (sortModules entry L).Nodup ∧ GoodOrder L (sortModules entry L) := by
  have H := sortVisit_main L L.length [entry] [] [] []
    (unseenCount_nil_le L) (by simp) (by simp) List.nodup_nil
    (by intro m hm; exact absurd hm (List.not_mem_nil m))
  exact ⟨H.2.2.2.2.1, H.2.2.2.2.2.1⟩

/-- C1: the code's captured-update emission has the two names the wrong way
round.  In a bundle where module a exports v, re-exported by the entry under
the name u, the update v++ inside the declaration var q = v++ is captured as
the pair (v, u); the statement inserted after the declaration is then
exports.v = u; (property named by the local name, value read from the output
export name, which is not a variable), where the specification's rule
exports.X = x requires exports.u = v;. -/
theorem capturedUpdateSwapsNames :
    (rewriteExportAssignments (MS.fresh "export var v = 1; var q = v++;")
        (.update "++" (.ident "v" false 26 27) 26 29) (some [("v", "u")])
        (.mk ["v", "q"] none) [] true (some [])).2.2 = some [⟨"v", "u"⟩] ∧
    exportCapturedUpdate ⟨"v", "u"⟩ = " exports.v = u;" ∧
    " exports.v = u;" ≠ " exports.u = v;" := by
  refine ⟨rfl, rfl, by decide⟩

/-- C2: an assignment or update whose target identifier is an imported
binding alias not shadowed in any scope fails with the backticked
cannot-reassign error; a member-expression target over an imported namespace
fails with the namespace variant; and in scenario S3 the binding set derived
by getReadOnlyIdentifiers from the import of x makes x = 1 fail with exactly
that message. -/
theorem illegalReassignmentFails
    (name nsname op : String) (bindings namespaces : List String) (scope : Scope)
    (prop rhs : Node) (computed : Bool) (a b c d e f : Nat)
    (hb : bindings.contains name = true)
    (hn : namespaces.contains nsname = true)
    (hs1 : scope.contains name false = false)
    (hs2 : scope.contains nsname false = false) :
    disallowIllegalReassignment (.assign op (.ident name false a b) rhs c d)
        bindings namespaces scope =
      .error (bindingMessage ++ "\x60" ++ name ++ "\x60") ∧
    disallowIllegalReassignment (.update op (.ident name false a b) c d)
        bindings namespaces scope =
      .error (bindingMessage ++ "\x60" ++ name ++ "\x60") ∧
    disallowIllegalReassignment
        (.assign op (.member (.ident nsname false a b) prop computed c d) rhs e f)
        bindings namespaces scope =
      .error (namespaceMessage ++ "\x60" ++ nsname ++ "\x60") ∧
    getReadOnlyIdentifiers [{ path := "a", specifiers := [⟨false, false, "x", "x"⟩] }] =
      (["x"], []) ∧
    disallowIllegalReassignment (.assign "=" (.ident "x" false 20 21) (.lit 24 25) 20 25)
        ["x"] [] (.mk [] none) =
      .error "Cannot reassign imported binding \x60x\x60" := by
  have hbm : name ∈ bindings := by simpa using hb
  have hnm : nsname ∈ namespaces := by simpa using hn
  refine ⟨?_, ?_, ?_, rfl, rfl⟩ <;>
    simp [disallowIllegalReassignment, disallowAssignee, hbm, hnm, hs1, hs2]

/-- C2 witness at a concrete input. -/
theorem illegalReassignmentFails_witness :
    disallowIllegalReassignment (.assign "=" (.ident "x" false 0 1) (.lit 4 5) 0 5)
        ["x"] ["n"] (.mk ["y"] none) =
      .error (bindingMessage ++ "\x60" ++ "x" ++ "\x60") :=
  (illegalReassignmentFails "x" "n" "=" ["x"] ["n"] (.mk ["y"] none) (.lit 0 0)
    (.lit 4 5) false 0 1 0 5 2 3 (by decide) (by decide) (by decide) (by decide)).1

/-- C10: when the target identifier is shadowed by a declaration in scope,
including function parameters, the reassignment guard does not raise, even
though the name is an imported binding alias, for assignments and updates
alike. -/
theorem shadowedReassignmentAllowed
    (name op : String) (bindings namespaces : List String) (scope : Scope)
    (rhs : Node) (a b c d : Nat)
    (hb : bindings.contains name = true)
    (hs : scope.contains name false = true) :
    disallowIllegalReassignment (.assign op (.ident name false a b) rhs c d)
        bindings namespaces scope = .ok () ∧
    disallowIllegalReassignment (.update op (.ident name false a b) c d)
        bindings namespaces scope = .ok () := by
  constructor <;> simp [disallowIllegalReassignment, disallowAssignee, hb, hs]

/-- C10 witness: the imported x shadowed by a function parameter x. -/
theorem shadowedReassignmentAllowed_witness :
    disallowIllegalReassignment (.assign "=" (.ident "x" false 30 31) (.lit 34 35) 30 35)
        ["x"] [] (.mk ["x"] (some (.mk [] none))) = .ok () :=
  (shadowedReassignmentAllowed "x" "=" ["x"] [] (.mk ["x"] (some (.mk [] none)))
    (.lit 34 35) 30 31 30 35 (by decide) (by decide)).1

/-- C3 counterexample: on the input path ././../x against importer a/b/c the
code answers a/b/../x, because only a single leading dot segment is shifted
before the dot-dot loop, while the claim's collapse of leading dot and
dot-dot segments answers a/x. -/
theorem resolveIdDiffersFromSpec :
    resolveId "././../x" "a/b/c" = "a/b/../x" ∧
    resolveIdSpec "././../x" "a/b/c" = "a/x" ∧
    resolveId "././../x" "a/b/c" ≠ resolveIdSpec "././../x" "a/b/c" := by
  refine ⟨rfl, rfl, by decide⟩

/-- C3 amended: for all inputs, the resolver returns the path minus one
trailing .js when it does not start with a dot; otherwise it shifts one
leading dot segment if present, pops the importer basename, pops one
more importer component per segment of the leading dot-dot run, drops the
following run of dot segments, keeps all remaining segments verbatim, joins
with slashes (both slash kinds split) and strips one trailing .js. -/
theorem resolveId_amended_correct (importPath importerPath : String) :
    resolveId importPath importerPath = resolveIdAmended importPath importerPath := by
  by_cases h : startsWithDot importPath = true
  · simp [resolveId, resolveIdAmended, h, consumeDotDot_eq, dropDots_eq]
  · rw [Bool.not_eq_true] at h
    simp [resolveId, resolveIdAmended, h]

/-- C4 counterexample: a single-module bundle whose module a declares a
top-level a and anonymously exports default 42: the conflict set is empty,
so the claim's rule keeps the module name a, but the code answers
a__default because the module name is redeclared at top level by something
other than the default value. -/
theorem defaultIdentifierDiffersFromClaim :
    defaultIdentifier [] [] "a" ["a"] ⟨false, none, "42"⟩ = "a__default" ∧
    defaultIdentifierClaim [] "a" ⟨false, none, "42"⟩ = "a" ∧
    defaultIdentifier [] [] "a" ["a"] ⟨false, none, "42"⟩ ≠
      defaultIdentifierClaim [] "a" ⟨false, none, "42"⟩ := by
  refine ⟨rfl, rfl, by decide⟩

/-- C4 amended: the default-export identifier follows the claim's rule with
a wider clash condition: a named default defers when its name is in the
conflict set or declared anywhere in another module; an anonymous default
defers when the module name is in the conflict set or declared in another
module, or is redeclared at this module's top level with a default value
textually different from the module name. -/
theorem defaultIdentifier_amended_correct
    (conflicts otherDeclared : List String) (modName : String)
    (topLevelNames : List String) (x : DefaultExportInfo) :
    defaultIdentifier conflicts otherDeclared modName topLevelNames x =
      defaultIdentifierAmended conflicts otherDeclared modName topLevelNames x := by
  obtain ⟨hd, nm, v⟩ := x
  have shuffle : ∀ (a o t d : Bool) (X Y : String),
      (if (a || d && t || o) = true then X else Y) =
        (if (a || o || t && d) = true then X else Y) := by
    intro a o t d X Y
    cases a <;> cases o <;> cases t <;> cases d <;> rfl
  cases nm with
  | none =>
    simp only [defaultIdentifier, defaultIdentifierAmended, nameClashes,
      Option.isSome_none, Bool.and_false]
    exact shuffle _ _ _ _ _ _
  | some n =>
    cases hd with
    | false =>
      simp only [defaultIdentifier, defaultIdentifierAmended, nameClashes,
        Option.isSome_some, Bool.false_and, Bool.false_eq_true, if_false]
      exact shuffle _ _ _ _ _ _
    | true =>
      simp [defaultIdentifier, defaultIdentifierAmended, nameClashes]

/-- C5 counterexample: in the two-module cycle where the entry a imports b
and b imports a, loading visits a first (the entry is fetched and recorded
before its import b is), yet the sorter emits b before a, so the members of
the cycle do not appear in their loading order. -/
theorem sortModulesCycleNotLoadOrder :
    sortModules "a" [("a", ["b"]), ("b", ["a"])] = ["b", "a"] ∧
    (["b", "a"] : List String) ≠ ["a", "b"] := by
  refine ⟨by simp [sortModules, sortVisit, lookupImports], by decide⟩

/-- C5 amended: when the local import graph is acyclic, witnessed by a rank
that strictly drops along every recorded import edge, the output of
sortModules places every module after all local modules it
transitively imports: any transitive local dependency is listed at a
strictly smaller index. -/
theorem sortModules_dependencies_first
    (L : List (String × List String)) (rank : String → Nat)
    (hrank : ∀ p ∈ L, ∀ b ∈ p.2, rank b < rank p.1)
    (entry m d : String) (hm : m ∈ sortModules entry L)
    (hdep : Relation.TransGen (edgeTo L) m d) (hloc : isLocal L d = true) :
    d ∈ sortModules entry L ∧
      (sortModules entry L).indexOf d < (sortModules entry L).indexOf m := by
  obtain ⟨hnd, hgood⟩ := sortModules_good L entry
  have direct : ∀ a b, a ∈ sortModules entry L → edgeTo L a b → isLocal L b = true →
      b ∈ sortModules entry L ∧
        (sortModules entry L).indexOf b < (sortModules entry L).indexOf a := by
    intro a b ha he hbl
    rcases hgood a ha b he hbl with h | hreach
    · exact h
    · exfalso
      have h1 : rank a ≤ rank b := reach_rank_le hrank hreach
      obtain ⟨imps, hl, hmem⟩ := he
      have h2 : rank b < rank a := hrank _ (lookupImports_mem hl) _ hmem
      omega
  refine Relation.TransGen.head_induction_on (P := fun a _ =>
    a ∈ sortModules entry L → d ∈ sortModules entry L ∧
      (sortModules entry L).indexOf d < (sortModules entry L).indexOf a)
    hdep ?_ ?_ hm
  · intro a h ha
    exact direct a d ha h hloc
  · intro a c hac hcd ih ha
    have hcl : isLocal L c = true := transGen_source_local hcd
    obtain ⟨hc, hic⟩ := direct a c ha hac hcl
    obtain ⟨hd2, hid⟩ := ih hc
    exact ⟨hd2, lt_trans hid hic⟩

/-- C5 witness: entry b imports a; in the sorted output a precedes b. -/
theorem sortModules_dependencies_first_witness :
    "a" ∈ sortModules "b" [("b", ["a"]), ("a", [])] ∧
    (sortModules "b" [("b", ["a"]), ("a", [])]).indexOf "a" <
      (sortModules "b" [("b", ["a"]), ("a", [])]).indexOf "b" :=
  sortModules_dependencies_first [("b", ["a"]), ("a", [])]
    (fun s => if s = "b" then 1 else 0) (by decide) "b" "b" "a"
    (by simp [sortModules, sortVisit, lookupImports])
    (Relation.TransGen.single ⟨["a"], by decide, by decide⟩) (by decide)

/-- C7: during bundle loading, an ENOENT read failure on an imported id
records the id as an external module, once, without aborting; an ENOENT on
the entry chain is fatal with the could-not-find-entry message; any other
read error aborts with the original error, in both positions. -/
theorem bundleReadErrorHandling
    (ems : List ExternalRecord) (lookup : List (String × ExternalRecord))
    (xid entry : String) (err : IOErr) :
    (err.code = "ENOENT" → (objGet lookup xid).isSome = false →
      handleImportFetchError ems lookup xid err =
        .ok (ems ++ [⟨xid⟩], objSet lookup xid ⟨xid⟩)) ∧
    (err.code = "ENOENT" → (objGet lookup xid).isSome = true →
      handleImportFetchError ems lookup xid err = .ok (ems, lookup)) ∧
    (err.code ≠ "ENOENT" →
      handleImportFetchError ems lookup xid err = .error (.io err)) ∧
    (err.code = "ENOENT" →
      getBundleCatch entry err = .msg ("Could not find entry module (" ++ entry ++ ")")) ∧
    (err.code ≠ "ENOENT" → getBundleCatch entry err = .io err) := by
  refine ⟨?_, ?_, ?_, ?_, ?_⟩
  · intro h1 h2
    simp [handleImportFetchError, h1, h2]
  · intro h1 h2
    simp [handleImportFetchError, h1, h2]
  · intro h
    simp [handleImportFetchError, h]
  · intro h
    simp [getBundleCatch, h]
  · intro h
    simp [getBundleCatch, h]

/-- C7 witness: a missing import becomes external; a non-ENOENT entry error
propagates unchanged. -/
theorem bundleReadErrorHandling_witness :
    handleImportFetchError [] [] "dep" ⟨"ENOENT"⟩ =
      .ok ([] ++ [⟨"dep"⟩], objSet [] "dep" ⟨"dep"⟩) ∧
    getBundleCatch "main" ⟨"EACCES"⟩ = .io ⟨"EACCES"⟩ :=
  ⟨(bundleReadErrorHandling [] [] "dep" "main" ⟨"ENOENT"⟩).1 rfl rfl,
   (bundleReadErrorHandling [] [] "dep" "main" ⟨"EACCES"⟩).2.2.2.2 (by decide)⟩

/-- C9: the transpiler pipeline's only mutable state is the one-shot
deprecation flag, threaded here explicitly; the emitted result, code
included, is independent of that state, a second run reusing the state left
by the first produces the identical result, and bundle emission over the
same combined bundle is a pure function of its inputs. -/
theorem transpileDeterministic (format : Format) (mod : Module) (options : Options)
    (bundle : Bundle) (w1 w2 : Bool) :
    (transpileCore format mod options w1).1 = (transpileCore format mod options w2).1 ∧
    (transpileCore format mod options (transpileCore format mod options w1).2.1).1 =
      (transpileCore format mod options w1).1 ∧
    bundleUmdDefaults bundle options = bundleUmdDefaults bundle options ∧
    bundleUmdStrict bundle options = bundleUmdStrict bundle options := by
  exact ⟨rfl, rfl, rfl, rfl⟩

/-- Bind of a successful Except computation. -/
theorem except_bind_ok {ε α β : Type} (a : α) (f : α → Except ε β) :
    (Except.ok a : Except ε α) >>= f = f a := rfl

/-- Bind of a failed Except computation. -/
theorem except_bind_err {ε α β : Type} (e : ε) (f : α → Except ε β) :
    (Except.error e : Except ε α) >>= f = Except.error e := rfl

/-- The reassignment guard never fires with empty binding sets
(assignee form). -/
theorem disallowAssignee_empty (a : Node) (scope : Scope) :
    disallowAssignee a [] [] scope = .ok () := by
  unfold disallowAssignee
  cases a <;> simp
  case member obj prop computed s e => cases obj <;> simp

/-- The reassignment guard never fires with empty binding sets. -/
theorem disallow_empty (n : Node) (scope : Scope) :
    disallowIllegalReassignment n [] [] scope = .ok () := by
  cases n <;> simp [disallowIllegalReassignment, disallowAssignee_empty]

/-- Export-assignment rewriting is inert when the export map is empty. -/
theorem rewrite_empty (body : MS) (n : Node) (scope : Scope) (ae : List String)
    (atTop : Bool) (cap : Option (List Captured)) :
    rewriteExportAssignments body n (some []) scope ae atTop cap = (body, ae, cap) := by
  unfold rewriteExportAssignments
  cases n <;> simp
  case assign op l r s e => cases l <;> simp [objGet]
  case update op arg s e => cases arg <;> simp [objGet]

/-- Identifier replacement is inert when every map entry is the identity. -/
theorem replaceIdentifiers_id (body : MS) (name : String) (s e : Nat)
    (repl : List (String × String)) (scope : Scope)
    (hrepl : ∀ k v, objGet repl k = some v → v = k) :
    replaceIdentifiers body name s e repl scope = body := by
  unfold replaceIdentifiers
  cases h : objGet repl name with
  | none => rfl
  | some r =>
    have hr := hrepl name r h
    subst hr
    simp

/-- The per-node enter work is the identity in an inert context. -/
theorem enterChecks_noop (ctx : TCtx) (hctx : IdCtx ctx) (scope : Scope) (atTop : Bool)
    (st : TState) (n : Node) : enterChecks ctx scope atTop st n = .ok st := by
  obtain ⟨h1, h2, h3, _⟩ := hctx
  obtain ⟨b, ae, cap⟩ := st
  unfold enterChecks
  rw [h1, h2, h3, disallow_empty, rewrite_empty]
  rfl

mutual

/-- In an inert context, traversing any node without a flagged top-level
this leaves the state untouched. -/
theorem traverseNode_noop (ctx : TCtx) (hctx : IdCtx ctx) :
    (n : Node) → noTopLevelThis n = true →
    ∀ (scope : Scope) (atTop : Bool) (st : TState),
    traverseNode ctx scope atTop st n = .ok st
  | .ident name skip s e, _, scope, atTop, st => by
    by_cases hs : skip = true
    · simp [traverseNode, hs]
    · rw [Bool.not_eq_true] at hs
      simp [traverseNode, hs, enterChecks_noop ctx hctx, except_bind_ok,
        replaceIdentifiers_id _ _ _ _ _ _ hctx.2.2.2]
  | .lit s e, _, scope, atTop, st => by
    simp [traverseNode, enterChecks_noop ctx hctx]
  | .thisExpr topLevel s e, h, scope, atTop, st => by
    have ht : topLevel = false := by simpa [noTopLevelThis] using h
    subst ht
    simp [traverseNode, enterChecks_noop ctx hctx, except_bind_ok]
  | .member obj prop computed s e, h, scope, atTop, st => by
    have hh := h
    simp only [noTopLevelThis, Bool.and_eq_true] at hh
    simp [traverseNode, enterChecks_noop ctx hctx, except_bind_ok,
      traverseNode_noop ctx hctx obj hh.1, traverseNode_noop ctx hctx prop hh.2]
  | .assign op l r s e, h, scope, atTop, st => by
    have hh := h
    simp only [noTopLevelThis, Bool.and_eq_true] at hh
    simp [traverseNode, enterChecks_noop ctx hctx, except_bind_ok,
      traverseNode_noop ctx hctx l hh.1, traverseNode_noop ctx hctx r hh.2]
  | .update op arg s e, h, scope, atTop, st => by
    have hh : noTopLevelThis arg = true := by simpa [noTopLevelThis] using h
    simp [traverseNode, enterChecks_noop ctx hctx, except_bind_ok,
      traverseNode_noop ctx hctx arg hh]
  | .varDeclarator id init s e, h, scope, atTop, st => by
    have hh := h
    simp only [noTopLevelThis, Bool.and_eq_true] at hh
    simp [traverseNode, enterChecks_noop ctx hctx, except_bind_ok,
      traverseNode_noop ctx hctx id hh.1, traverseOpt_noop ctx hctx init hh.2]
  | .varDecl kind ds s e, h, scope, atTop, st => by
    have hh : noTopLevelThisList ds = true := by simpa [noTopLevelThis] using h
    simp [traverseNode, except_bind_ok,
      traverseList_noop ctx hctx ds hh scope atTop { st with captured := some [] }]
  | .exprStmt ex s e, h, scope, atTop, st => by
    have hh : noTopLevelThis ex = true := by simpa [noTopLevelThis] using h
    simp [traverseNode, enterChecks_noop ctx hctx, except_bind_ok,
      traverseNode_noop ctx hctx ex hh]
  | .block body s e, h, scope, atTop, st => by
    have hh : noTopLevelThisList body = true := by simpa [noTopLevelThis] using h
    simp [traverseNode, enterChecks_noop ctx hctx, except_bind_ok,
      traverseList_noop ctx hctx body hh]
  | .funcDecl name params fbody s e, h, scope, atTop, st => by
    have hh : noTopLevelThisList fbody = true := by simpa [noTopLevelThis] using h
    simp [traverseNode, enterChecks_noop ctx hctx, except_bind_ok,
      traverseList_noop ctx hctx fbody hh]
  | .funcExpr id params fbody s e, h, scope, atTop, st => by
    have hh : noTopLevelThisList fbody = true := by simpa [noTopLevelThis] using h
    simp [traverseNode, enterChecks_noop ctx hctx, except_bind_ok,
      traverseList_noop ctx hctx fbody hh]

/-- traverseNode_noop over an optional child. -/
theorem traverseOpt_noop (ctx : TCtx) (hctx : IdCtx ctx) :
    (o : Option Node) → noTopLevelThisOpt o = true →
    ∀ (scope : Scope) (atTop : Bool) (st : TState),
    traverseOpt ctx scope atTop st o = .ok st
  | none, _, scope, atTop, st => by simp [traverseOpt]
  | some n, h, scope, atTop, st => by
    have hh : noTopLevelThis n = true := by simpa [noTopLevelThisOpt] using h
    simp [traverseOpt, traverseNode_noop ctx hctx n hh]

/-- traverseNode_noop over a child list. -/
theorem traverseList_noop (ctx : TCtx) (hctx : IdCtx ctx) :
    (l : List Node) → noTopLevelThisList l = true →
    ∀ (scope : Scope) (atTop : Bool) (st : TState),
    traverseList ctx scope atTop st l = .ok st
  | [], _, scope, atTop, st => by simp [traverseList]
  | n :: rest, h, scope, atTop, st => by
    have hh := h
    simp only [noTopLevelThisList, Bool.and_eq_true] at hh
    simp [traverseList, except_bind_ok, traverseNode_noop ctx hctx n hh.1,
      traverseList_noop ctx hctx rest hh.2]

end

/-- In an inert replacement map, the whole traversal leaves the buffer
untouched and exports nothing. -/
theorem traverseAst_noop (ast : List Node) (body : MS)
    (repl : List (String × String)) (hrepl : ∀ k v, objGet repl k = some v → v = k)
    (hthis : noTopLevelThisList ast = true) :
    traverseAst ast body repl [] [] (some []) = .ok (body, []) := by
  simp only [traverseAst]
  rw [traverseList_noop ⟨repl, [], [], some []⟩ ⟨rfl, rfl, rfl, hrepl⟩ ast hthis]
  rfl

/-- A single-entry identity map is inert. -/
theorem objGet_single_id (k v : String) :
    objGet [("exports", "exports")] k = some v → v = k := by
  intro h
  by_cases hk : "exports" = k
  · simp [objGet, hk] at h
    rw [← h, ← hk]
  · simp [objGet, hk] at h

/-- C6 amended: a module with no imports, no exports, no flagged top-level
this, and no declaration of the identifier exports comes out of the
strict-mode body transformer with an untouched buffer: the rendered body is
byte-identical to the source, trimming not even needed.  (The deconflicted
exports alias is the identity exactly when the module does not declare
exports; the counterexample shows the renaming otherwise.) -/
theorem transformBodyRoundTrip (mod : Module)
    (hi : mod.imports = []) (he : mod.exports = [])
    (hthis : noTopLevelThisList mod.ast = true)
    (hdecl : (declaredOfList mod.ast).contains "exports" = false) :
    utilsTransformBody mod (MS.fresh mod.source) {} = .ok (MS.fresh mod.source) ∧
    (MS.fresh mod.source).render = mod.source := by
  constructor
  · have hdef : deconflict "exports" (declaredOfList mod.ast) = "exports" := by
      unfold deconflict
      simp only [deconflictFuel]
      rw [hdecl]
      simp
    unfold utilsTransformBody
    rw [hi, he]
    simp only [show gatherImports [] = ([], []) from rfl,
      show getExportNames [] = [] from rfl,
      show getReadOnlyIdentifiers [] = ([], []) from rfl, hdef,
      show objSet ([] : List (String × String)) "exports" "exports" =
        [("exports", "exports")] from rfl]
    rw [traverseAst_noop mod.ast (MS.fresh mod.source) [("exports", "exports")]
      objGet_single_id hthis]
    simp [except_bind_ok, objGet]
  · simp [MS.render, MS.fresh, sortEdits, applySorted]

/-- C6 witness: the module var a = 1; round-trips untouched. -/
theorem transformBodyRoundTrip_witness :
    utilsTransformBody
        { source := "var a = 1;",
          ast := [.varDecl "var" [.varDeclarator (.ident "a" false 4 5)
            (some (.lit 8 9)) 4 9] 0 10] }
        (MS.fresh "var a = 1;") {} = .ok (MS.fresh "var a = 1;") ∧
    (MS.fresh "var a = 1;").render = "var a = 1;" :=
  transformBodyRoundTrip
    { source := "var a = 1;",
      ast := [.varDecl "var" [.varDeclarator (.ident "a" false 4 5)
        (some (.lit 8 9)) 4 9] 0 10] }
    rfl rfl (by decide) (by decide)

/-- C6 counterexample: the module var exports = 1; has no imports, no
exports and no top-level this, yet the strict-mode body transformer
deconflicts the declared identifier exports and rewrites its span to
_exports, so the rendered body differs from the (already trimmed)
source. -/
theorem transformBodyRenamesExports :
    utilsTransformBody
        { source := "var exports = 1;",
          ast := [.varDecl "var" [.varDeclarator (.ident "exports" false 4 11)
            (some (.lit 14 15)) 4 15] 0 16] }
        (MS.fresh "var exports = 1;") {} =
      .ok { MS.fresh "var exports = 1;" with edits := [⟨4, 11, "_exports"⟩] } ∧
    ({ MS.fresh "var exports = 1;" with edits := [⟨4, 11, "_exports"⟩] } : MS).render =
      "var _exports = 1;" ∧
    "var _exports = 1;" ≠ "var exports = 1;" := by
  refine ⟨?_, by decide, by decide⟩
  simp [utilsTransformBody, traverseAst, traverseList, traverseOpt, traverseNode, enterChecks,
    disallowIllegalReassignment, disallowAssignee, rewriteExportAssignments, replaceIdentifiers,
    objGet, objSet, gatherImports, getExportNames, getReadOnlyIdentifiers, deconflict,
    deconflictFuel, declaredOfList, declaredOfNode, declaredOfOpt, identName, varsOfList,
    varsOfNode, varsOfOpt, varsOfDeclList, Scope.contains, MS.replace, MS.fresh, tlfnOfList,
    tlfnOfNode, removeExportStmt, nodeOperator, Node.startPos, Node.stopPos,
    except_bind_ok, except_bind_err]

/-- Errors mapped from the body transformer carry no code. -/
theorem mapError_plain_code {α : Type} (x : Except String α) (e : EsError)
    (h : Except.mapError plainErr x = .error e) : e.code = none := by
  cases x with
  | ok a => simp [Except.mapError] at h
  | error s =>
    simp [Except.mapError, plainErr] at h
    rw [← h]

/-- Uncoded errors propagate through bind. -/
theorem bind_error_code {α : Type} (x : Except EsError α) (f : α → Except EsError PResult)
    (hx : ∀ e0, x = .error e0 → e0.code = none)
    (hf : ∀ a e0, f a = .error e0 → e0.code = none)
    (e : EsError) (h : (x >>= f) = .error e) : e.code = none := by
  cases x with
  | error e0 =>
    rw [except_bind_err] at h
    injection h with h2
    exact h2 ▸ hx e0 rfl
  | ok a =>
    rw [except_bind_ok] at h
    exact hf a e h

/-- packageResult only raises uncoded errors. -/
theorem packageResult_code (body : MS) (options : Options) (isBundle : Bool)
    (e : EsError) (h : packageResult body options isBundle = .error e) : e.code = none := by
  unfold packageResult at h
  cases hsm : options.sourceMap with
  | none =>
    rw [hsm] at h
    simp at h
  | some sm =>
    rw [hsm] at h
    by_cases h1 : sm = "inline" <;>
      by_cases h2 : options.sourceMapFile = none <;>
      by_cases h3 : isBundle = true <;>
      by_cases h4 : options.sourceMapSource = none <;>
      simp [h1, h2, h3, h4, plainErr] at h <;>
      exact h ▸ rfl

/-- transformExportDeclaration only raises uncoded errors. -/
theorem transformExportDeclaration_code (d : Option ExportDecl) (body : MS)
    (e : EsError) (h : transformExportDeclaration d body = .error e) : e.code = none := by
  unfold transformExportDeclaration at h
  cases d with
  | none => simp at h
  | some d =>
    repeat' split at h
    all_goals simp_all [plainErr]
    all_goals exact h ▸ rfl

/-- The defaults-mode single-file umd builder only raises uncoded errors
once the name check has passed. -/
theorem umdDefaults_error_code (mod : Module) (options : Options)
    (hname : optionFalsy options.name = false) (e : EsError)
    (h : umdDefaults mod options = .error e) : e.code = none := by
  unfold umdDefaults at h
  simp only [requireName, hname, Bool.false_eq_true, if_false, except_bind_ok] at h
  split at h
  · exact packageResult_code _ _ _ _ h
  · exact bind_error_code _ _ (fun e0 h0 => transformExportDeclaration_code _ _ _ h0)
      (fun a e0 h0 => packageResult_code _ _ _ _ h0) e h

/-- The strict-mode single-file umd builder only raises uncoded errors once
the name check has passed. -/
theorem umdStrict_error_code (mod : Module) (options : Options)
    (hname : optionFalsy options.name = false) (e : EsError)
    (h : umdStrict mod options = .error e) : e.code = none := by
  unfold umdStrict at h
  simp only [requireName, hname, Bool.false_eq_true, if_false, except_bind_ok] at h
  exact bind_error_code _ _ (fun e0 h0 => mapError_plain_code _ _ h0)
    (fun a e0 h0 => packageResult_code _ _ _ _ h0) e h

/-- The defaults-mode bundle umd builder only raises uncoded errors once the
name check has passed. -/
theorem bundleUmdDefaults_error_code (bundle : Bundle) (options : Options)
    (hname : optionFalsy options.name = false) (e : EsError)
    (h : bundleUmdDefaults bundle options = .error e) : e.code = none := by
  unfold bundleUmdDefaults at h
  simp only [requireName, hname, Bool.false_eq_true, if_false, except_bind_ok] at h
  split at h
  · exact packageResult_code _ _ _ _ h
  · exact packageResult_code _ _ _ _ h

/-- The strict-mode bundle umd builder only raises uncoded errors once the
name check has passed. -/
theorem bundleUmdStrict_error_code (bundle : Bundle) (options : Options)
    (hname : optionFalsy options.name = false) (e : EsError)
    (h : bundleUmdStrict bundle options = .error e) : e.code = none := by
  unfold bundleUmdStrict at h
  simp only [requireName, hname, Bool.false_eq_true, if_false, except_bind_ok] at h
  split at h
  · exact packageResult_code _ _ _ _ h
  · exact packageResult_code _ _ _ _ h

/-- C8: requesting the universal wrapper without a truthy name yields the
typed MISSING_NAME error from each of the four umd builders, single-file and
bundle, defaults and strict mode, before any output is assembled; with a
name supplied, none of them can produce a MISSING_NAME error. -/
theorem umdRequiresName (mod : Module) (bundle : Bundle) (options : Options) :
    (optionFalsy options.name = true →
      umdDefaults mod options = .error missingNameError ∧
      umdStrict mod options = .error missingNameError ∧
      bundleUmdDefaults bundle options = .error missingNameError ∧
      bundleUmdStrict bundle options = .error missingNameError ∧
      missingNameError.code = some "MISSING_NAME") ∧
    (optionFalsy options.name = false → ∀ e : EsError,
      (umdDefaults mod options = .error e → e.code ≠ some "MISSING_NAME") ∧
      (umdStrict mod options = .error e → e.code ≠ some "MISSING_NAME") ∧
      (bundleUmdDefaults bundle options = .error e → e.code ≠ some "MISSING_NAME") ∧
      (bundleUmdStrict bundle options = .error e → e.code ≠ some "MISSING_NAME")) := by
  constructor
  · intro h
    refine ⟨?_, ?_, ?_, ?_, rfl⟩ <;>
      simp [umdDefaults, umdStrict, bundleUmdDefaults, bundleUmdStrict, requireName, h,
        except_bind_err]
  · intro h e
    refine ⟨?_, ?_, ?_, ?_⟩ <;> intro he
    · rw [umdDefaults_error_code mod options h e he]
      simp
    · rw [umdStrict_error_code mod options h e he]
      simp
    · rw [bundleUmdDefaults_error_code bundle options h e he]
      simp
    · rw [bundleUmdStrict_error_code bundle options h e he]
      simp

/-- C8 witness: all four builders at a missing name. -/
theorem umdRequiresName_witness :
    umdDefaults sampleModule {} = .error missingNameError ∧
    umdStrict sampleModule {} = .error missingNameError ∧
    bundleUmdDefaults sampleBundle {} = .error missingNameError ∧
    bundleUmdStrict sampleBundle {} = .error missingNameError ∧
    missingNameError.code = some "MISSING_NAME" :=
  (umdRequiresName sampleModule sampleBundle {}).1 rfl

end Esperanto
